import Mathlib

/-! BloodLink front-end script (`static/js/scripts.js`).

A shallow embedding of the page script: the script's globals, the parts of the
DOM and of local storage it reads and writes, and the handlers themselves, as
functions on an explicit page state.  Coordinates are CSS pixels modelled as
integers; the network is an explicit outcome handed to the handler that awaits
it.
-/

namespace BloodLink

/-! ## JavaScript helpers -/

/-- The `translations` global: the object loaded from `/static/i18n/{lang}.json`,
mapping keys to localized text (`none` when the key is missing). -/
abbrev Translations := String → Option String

/-- The expression `translations.key || fallback` on a string-valued table: the
fallback is taken when the entry is missing or the empty string. -/
def orDefault (v : Option String) (fallback : String) : String :=
  match v with
  | some t => if t = "" then fallback else t
  | none => fallback

/-- The method `String.prototype.includes`. -/
def jsIncludes (s sub : String) : Bool :=
  s.toList.tails.any (fun t => sub.toList.isPrefixOf t)

/-- JavaScript white space and line terminators: what `trim` strips and what
`\s` matches. -/
def isJsWhitespace (c : Char) : Bool :=
  let n := c.toNat
  n = 0x09 || n = 0x0A || n = 0x0B || n = 0x0C || n = 0x0D || n = 0x20 ||
  n = 0xA0 || n = 0x1680 || (0x2000 ≤ n && n ≤ 0x200A) || n = 0x2028 ||
  n = 0x2029 || n = 0x202F || n = 0x205F || n = 0x3000 || n = 0xFEFF

/-- The method `String.prototype.trim`, on the list of characters. -/
def jsTrimChars (cs : List Char) : List Char :=
  ((cs.dropWhile isJsWhitespace).reverse.dropWhile isJsWhitespace).reverse

/-- The method `String.prototype.trim`. -/
def jsTrim (s : String) : String :=
  String.mk (jsTrimChars s.toList)

/-! ## Page state -/

/-- A toast appended to `#toastContainer` by `showToast`. -/
structure Toast where
  message : String
  type : String
  duration : Nat
  deriving DecidableEq, Repr

/-- A `CustomEvent` dispatched on `window`: its name and its detail. -/
structure CustomEvent where
  name : String
  detail : String
  deriving DecidableEq, Repr

/-- An element carrying a `data-i18n` attribute, as `updatePageText` sees it. -/
structure I18nElement where
  tagName : String
  type : String
  hasPlaceholder : Bool
  key : String
  value : String
  placeholder : String
  textContent : String
  deriving DecidableEq, Repr

/-- The sender of a chat message, the second argument of `addMessageToChat`. -/
inductive Sender where
  | user
  | bot
  deriving DecidableEq, Repr

/-- A child of `#chatbotMessages`: a message `div` or the typing indicator.  The
text of a message is `none` when the value handed to `addMessageToChat` is not a
string.  Every created element has its own identity `id`. -/
inductive ChatKind where
  | message (sender : Sender) (text : Option String) (typeEffect : Bool)
  | typingIndicator
  deriving DecidableEq, Repr

/-- A DOM node of the chat: identity and content. -/
structure ChatNode where
  id : Nat
  kind : ChatKind
  deriving DecidableEq, Repr

/-- The `#chatbotInput` element. -/
structure ChatInput where
  value : String
  styleHeight : String
  deriving DecidableEq, Repr

/-- The JSON body `sendMessage` posts to `/api/chatbot`. -/
structure ChatbotBody where
  message : String
  language : String
  timestamp : String
  deriving DecidableEq, Repr

/-- A request issued through `fetch`: the URL, the method and, for the chatbot,
the body. -/
structure Request where
  url : String
  method : String
  body : Option ChatbotBody
  deriving DecidableEq, Repr

/-- A point of the viewport, in CSS pixels. -/
structure Point where
  x : Int
  y : Int
  deriving DecidableEq, Repr

/-- The variables `initializeChatbotDragging` closes over. -/
structure DragState where
  isDragging : Bool := false
  dragOffset : Point := ⟨0, 0⟩
  startPos : Point := ⟨0, 0⟩
  hasMoved : Bool := false
  dragTarget : Option String := none
  deriving DecidableEq, Repr

/-- The element `#chatbotWidget`: the inline `left` and `top` in pixels (`none`
until the script writes them), the inline `right` and `bottom`, its size and
whether it carries the class `dragging`. -/
structure Widget where
  styleLeft : Option Int := none
  styleTop : Option Int := none
  styleRight : String := ""
  styleBottom : String := ""
  offsetWidth : Int := 0
  offsetHeight : Int := 0
  dragging : Bool := false
  deriving DecidableEq, Repr

/-- A file handed to the browser by `downloadFile`. -/
structure Download where
  content : String
  filename : String
  contentType : String
  deriving DecidableEq, Repr

/-- What the script reads and writes: its globals, local storage and the DOM. -/
structure Page where
  /-- The global `currentLanguage`. -/
  currentLanguage : String := "en"
  /-- The global `translations`. -/
  translations : Translations := fun _ => none
  /-- The browser's `localStorage`. -/
  localStorage : String → Option String := fun _ => none
  /-- The attribute `data-theme` of `document.documentElement`. -/
  dataTheme : Option String := none
  /-- The property `document.documentElement.lang`. -/
  htmlLang : String := ""
  /-- The class name of `#themeIcon`, when the element exists. -/
  themeIcon : Option String := none
  /-- The content of `meta[name="theme-color"]`, when the element exists. -/
  metaThemeColor : Option String := none
  /-- The inline style `document.body.style.transition`. -/
  bodyTransition : String := ""
  /-- The custom events dispatched on `window`, oldest first. -/
  events : List CustomEvent := []
  /-- The elements selected by `[data-i18n]`. -/
  i18nElements : List I18nElement := []
  /-- The text of `#currentLang`, when the element exists. -/
  currentLang : Option String := none
  /-- The element `#chatbotInput`, when it exists. -/
  chatbotInput : Option ChatInput := none
  /-- The children of `#chatbotMessages`, when the element exists. -/
  chatbotMessages : Option (List ChatNode) := none
  /-- The identity the next created chat element gets. -/
  nextNodeId : Nat := 0
  /-- The inner HTML of `.file-upload-area`, when the element exists. -/
  uploadArea : Option String := none
  /-- The toasts shown, oldest first. -/
  toasts : List Toast := []
  /-- The requests issued through `fetch`, oldest first. -/
  requests : List Request := []
  /-- The lines written by `console.error` and `console.log`. -/
  console : List String := []
  /-- The property `window.innerWidth`. -/
  innerWidth : Int := 0
  /-- The property `window.innerHeight`. -/
  innerHeight : Int := 0
  /-- The element `#chatbotWidget`. -/
  widget : Widget := {}
  /-- The drag variables of `initializeChatbotDragging`. -/
  drag : DragState := {}
  /-- Whether `#chatbotPanel` carries the class `show`, when the element exists. -/
  chatbotPanel : Option Bool := none
  /-- Whether `#chatbotToggleBtn` exists. -/
  hasToggleBtn : Bool := false
  /-- The class name of the icon inside `#chatbotToggleBtn`, when there is one. -/
  toggleIcon : Option String := none
  /-- The files downloaded through `downloadFile`, oldest first. -/
  downloads : List Download := []

/-- The method `localStorage.setItem`. -/
def setItem (store : String → Option String) (key value : String) : String → Option String :=
  fun k => if k = key then some value else store k

/-! ## Toasts -/

/-- The function `showToast(message, type, duration)`, with the default duration
of 5000 ms every caller in the file uses. -/
def showToast (message type : String) (s : Page) : Page :=
  { s with toasts := s.toasts ++ [⟨message, type, 5000⟩] }

/-! ## File upload -/

/-- A `File` of the file input: its name, MIME type and size in bytes. -/
structure File where
  name : String
  type : String
  size : Nat
  deriving DecidableEq, Repr

/-- The constant `allowedTypes` of `handleFileSelect`. -/
def allowedTypes : List String :=
  ["image/png", "image/jpeg", "image/jpg", "application/pdf"]

/-- The constant `maxSize` of `handleFileSelect` (16MB). -/
def maxSize : Nat := 16 * 1024 * 1024

/-- The selected-file display `handleFileSelect` writes into the upload area.
`formatFileSize` works in floating point, so the rendering of the size is a
parameter. -/
def fileSelectedHtml (formatFileSize : Nat → String) (file : File) : String :=
  "\n            <div class=\"file-selected\">\n                <i class=\"fas fa-file-"
    ++ (if jsIncludes file.type "pdf" then "pdf" else "image")
    ++ " fa-2x text-success mb-2\"></i>\n                <p class=\"mb-1\"><strong>"
    ++ file.name
    ++ "</strong></p>\n                <p class=\"text-muted small\">"
    ++ formatFileSize file.size
    ++ "</p>\n                <button type=\"button\" class=\"btn btn-outline-danger btn-sm mt-2\" onclick=\"clearFileSelection()\">\n                    <i class=\"fas fa-times me-1\"></i>Remove\n                </button>\n            </div>\n        "

/-- The function `handleFileSelect(file)`. -/
def handleFileSelect (formatFileSize : Nat → String) (file : File) (s : Page) : Page :=
  if !allowedTypes.contains file.type then
    showToast (orDefault (s.translations "invalid_file_type")
      "Please select a PNG, JPG, or PDF file.") "error" s
  else if file.size > maxSize then
    showToast (orDefault (s.translations "file_too_large")
      "File size must be less than 16MB.") "error" s
  else
    match s.uploadArea with
    | some _ => { s with uploadArea := some (fileSelectedHtml formatFileSize file) }
    | none => s

/-! ## Theme -/

/-- The function `setTheme(theme)`. -/
def setTheme (theme : String) (s : Page) : Page :=
  { s with
    dataTheme := some theme
    themeIcon := s.themeIcon.map (fun _ => if theme = "dark" then "fas fa-sun" else "fas fa-moon")
    localStorage := setItem s.localStorage "theme" theme
    metaThemeColor :=
      s.metaThemeColor.map (fun _ => if theme = "dark" then "#1a1a1a" else "#ffffff")
    events := s.events ++ [⟨"themeChanged", theme⟩] }

/-- The function `toggleTheme()`.  The timer that clears the body transition
after 300 ms is not part of the call. -/
def toggleTheme (s : Page) : Page :=
  let currentTheme := s.dataTheme
  let newTheme := if currentTheme = some "dark" then "light" else "dark"
  { setTheme newTheme s with bodyTransition := "all 0.3s ease-in-out" }

/-- The function `initializeTheme()`: `localStorage.getItem('theme') || 'light'`
is handed to `setTheme`. -/
def initializeTheme (s : Page) : Page :=
  let savedTheme := orDefault (s.localStorage "theme") "light"
  setTheme savedTheme s

/-- The page after `initializeTheme` and then `n` calls of `toggleTheme`. -/
def themeRun (n : Nat) (s : Page) : Page :=
  toggleTheme^[n] (initializeTheme s)

/-! ## Language -/

/-- What a `fetch` of a language file comes to: the promise rejects, the
response is not ok, or the response is ok and `response.json()` gives the table
(`none` when `json()` rejects). -/
inductive FetchOutcome where
  | throws
  | notOk
  | ok (json : Option Translations)

/-- The network seen by `changeLanguage`: the outcome of fetching `url` as the
request issued after `n` earlier ones. -/
abbrev Network := Nat → String → FetchOutcome

/-- The URL of a language file. -/
def i18nUrl (lang : String) : String :=
  "/static/i18n/" ++ lang ++ ".json"

/-- The loop body of `updatePageText()` on one element, for a key that is an
entry of the table or names no property at all; a key that names a property
inherited from `Object.prototype` is outside this model. -/
def updateElementText (tr : Translations) (e : I18nElement) : I18nElement :=
  match tr e.key with
  | none => e
  | some t =>
    if t = "" then e
    else if e.tagName = "INPUT" && e.type = "submit" then { e with value := t }
    else if e.tagName = "INPUT" && e.hasPlaceholder then { e with placeholder := t }
    else if e.tagName = "TEXTAREA" && e.hasPlaceholder then { e with placeholder := t }
    else { e with textContent := t }

/-- The function `updatePageText()`. -/
def updatePageText (s : Page) : Page :=
  { s with i18nElements := s.i18nElements.map (updateElementText s.translations) }

/-- The table `langMap` of `updateLanguageDisplay`, with its `|| 'EN'`. -/
def langMap (lang : String) : String :=
  if lang = "en" then "EN"
  else if lang = "kn" then "ಕನ್ನಡ"
  else if lang = "hi" then "हिं"
  else "EN"

/-- The function `updateLanguageDisplay(lang)`. -/
def updateLanguageDisplay (lang : String) (s : Page) : Page :=
  { s with currentLang := s.currentLang.map (fun _ => langMap lang) }

/-- The body of `if (response.ok)` in `changeLanguage`, once `response.json()`
has given `json`. -/
def applyLanguage (json : Translations) (lang : String) (s : Page) : Page :=
  let s1 := { s with
    translations := json
    currentLanguage := lang
    localStorage := setItem s.localStorage "language" lang }
  let s2 := updateLanguageDisplay lang (updatePageText s1)
  { s2 with
    htmlLang := lang
    events := s2.events ++ [⟨"languageChanged", lang⟩] }

/-- The function `changeLanguage(lang)`.  Each `fetch` is appended to
`requests`; its outcome is read from the network at the number of requests
issued before it. -/
def changeLanguage (net : Network) (lang : String) (s : Page) : Page :=
  let s1 := { s with requests := s.requests ++ [⟨i18nUrl lang, "GET", none⟩] }
  match net s.requests.length (i18nUrl lang) with
  | .ok (some json) => applyLanguage json lang s1
  | .notOk => s1
  | _ =>
    let s2 := { s1 with console := s1.console ++ ["Error loading language file:"] }
    if lang ≠ "en" then changeLanguage net "en" s2 else s2
termination_by (if lang = "en" then 0 else 1)
decreasing_by simp_all

/-- The function `initializeLanguage()`, without the listener registration. -/
def initializeLanguage (net : Network) (s : Page) : Page :=
  changeLanguage net (orDefault (s.localStorage "language") "en") s

/-! ## Chat widget: dragging -/

/-- The function `toggleChatbot()`.  The timer that focuses the input is not
part of the call. -/
def toggleChatbot (s : Page) : Page :=
  match s.chatbotPanel with
  | some isShowing =>
    if s.hasToggleBtn then
      { s with
        chatbotPanel := some (!isShowing)
        toggleIcon := s.toggleIcon.map (fun _ => if !isShowing then "fas fa-times" else "fas fa-robot") }
    else s
  | none => s

/-- The handlers `startDrag(e)` and `startDragTouch(e)` (`target` is `button`)
and, when the event is not on the close button, `startDragFromHeader(e)` and
`startDragTouchFromHeader(e)` (`target` is `header`): `client` is the pointer
position and `rect` the top-left corner of the widget's bounding rectangle. -/
def startDrag (target : String) (client rect : Point) (s : Page) : Page :=
  { s with
    drag := {
      isDragging := true
      hasMoved := false
      dragTarget := some target
      dragOffset := ⟨client.x - rect.x, client.y - rect.y⟩
      startPos := client }
    widget := { s.widget with dragging := true } }

/-- The expression `Math.max(0, Math.min(x, maxX))`. -/
def constrain (x maxX : Int) : Int :=
  max 0 (min x maxX)

/-- The handlers `drag(e)` and `dragTouch(e)`, which differ only in where the
pointer position `client` is read from (`e` or `e.touches[0]`). -/
def drag (client : Point) (s : Page) : Page :=
  if !s.drag.isDragging then s
  else
    let moveDistance := |client.x - s.drag.startPos.x| + |client.y - s.drag.startPos.y|
    let hasMoved := if moveDistance > 5 then true else s.drag.hasMoved
    let x := client.x - s.drag.dragOffset.x
    let y := client.y - s.drag.dragOffset.y
    let maxX := s.innerWidth - s.widget.offsetWidth
    let maxY := s.innerHeight - s.widget.offsetHeight
    let constrainedX := constrain x maxX
    let constrainedY := constrain y maxY
    { s with
      drag := { s.drag with hasMoved := hasMoved }
      widget := { s.widget with
        styleLeft := some constrainedX
        styleTop := some constrainedY
        styleRight := "auto"
        styleBottom := "auto" } }

/-- The handler `dragTouch(e)`, with `touch` the position of `e.touches[0]`. -/
def dragTouch (touch : Point) (s : Page) : Page :=
  drag touch s

/-- The text `JSON.stringify({left, top})` for integer coordinates. -/
def positionJson (rect : Point) : String :=
  "\x7b\"left\":" ++ toString rect.x ++ ",\"top\":" ++ toString rect.y ++ "\x7d"

/-- The handlers `endDrag(e)` and `endDragTouch(e)`; `rect` is the top-left
corner of the widget's bounding rectangle at that moment. -/
def endDrag (rect : Point) (s : Page) : Page :=
  if !s.drag.isDragging then s
  else
    let s1 := { s with
      drag := { s.drag with isDragging := false }
      widget := { s.widget with dragging := false } }
    let s2 := if !s1.drag.hasMoved then toggleChatbot s1 else s1
    { s2 with localStorage := setItem s2.localStorage "chatbotPosition" (positionJson rect) }

/-- What `JSON.parse(savedPosition)` comes to for a stored `chatbotPosition`:
the parse throws (or gives `null`, on which `pos.left` throws), or it gives the
saved `left` and `top`. -/
inductive ParsedPosition where
  | invalid
  | position (left top : Int)
  deriving DecidableEq, Repr

/-- The block `// Restore saved position` of `initializeChatbotDragging`, with
`JSON.parse` as a parameter.  A stored text that parses to a value whose `left`
and `top` are not numbers is outside this model. -/
def restorePosition (jsonParse : String → ParsedPosition) (s : Page) : Page :=
  match s.localStorage "chatbotPosition" with
  | none => s
  | some savedPosition =>
    if savedPosition = "" then s
    else
      match jsonParse savedPosition with
      | .invalid => { s with console := s.console ++ ["Could not restore chatbot position"] }
      | .position left top =>
        let maxX := s.innerWidth - s.widget.offsetWidth
        let maxY := s.innerHeight - s.widget.offsetHeight
        let constrainedX := constrain left maxX
        let constrainedY := constrain top maxY
        { s with
          widget := { s.widget with
            styleLeft := some constrainedX
            styleTop := some constrainedY
            styleRight := "auto"
            styleBottom := "auto" } }

/-! ## Chat widget: messages -/

/-- The function `addMessageToChat(message, sender, typeEffect)`.  With the
typing effect the text is filled in by a timer; the node records the text it
ends with. -/
def addMessageToChat (message : Option String) (sender : Sender) (typeEffect : Bool)
    (s : Page) : Page :=
  match s.chatbotMessages with
  | none => s
  | some children =>
    { s with
      chatbotMessages := some (children ++ [⟨s.nextNodeId, .message sender message typeEffect⟩])
      nextNodeId := s.nextNodeId + 1 }

/-- The function `addTypingIndicator()`: the page afterwards and the identity of
the indicator (`none` for the `null` it returns without a container). -/
def addTypingIndicator (s : Page) : Page × Option Nat :=
  match s.chatbotMessages with
  | none => (s, none)
  | some children =>
    ({ s with
        chatbotMessages := some (children ++ [⟨s.nextNodeId, .typingIndicator⟩])
        nextNodeId := s.nextNodeId + 1 },
      some s.nextNodeId)

/-- The method `element.remove()` on a child of `#chatbotMessages`; a node that
is no longer in the container is left alone. -/
def removeNode (id : Nat) (s : Page) : Page :=
  { s with chatbotMessages := s.chatbotMessages.map (fun children => children.filter (fun n => n.id ≠ id)) }

/-- What `await response.json()` gives for an ok chatbot response: the promise
rejects, the value is `null`, or it is a value whose `reply` is the given string
(`none` when `data.reply` is not a string). -/
inductive ReplyData where
  | invalid
  | null
  | value (reply : Option String)
  deriving DecidableEq, Repr

/-- What the `fetch` of `/api/chatbot` comes to. -/
inductive ChatOutcome where
  | throws
  | notOk
  | ok (data : ReplyData)
  deriving DecidableEq, Repr

/-- How a block of statements ends: the page it leaves and the exception that
escapes it, if any. -/
structure Completion where
  page : Page
  thrown : Option String

/-- The `try` block of `sendMessage`, from the `fetch` on. -/
def sendMessageTry (outcome : ChatOutcome) (now : String) (message : String)
    (typingIndicator : Option Nat) (s : Page) : Completion :=
  let s1 := { s with requests := s.requests ++
    [⟨"/api/chatbot", "POST", some ⟨message, s.currentLanguage, now⟩⟩] }
  match typingIndicator with
  | none => ⟨s1, some "TypeError"⟩
  | some indicator =>
    match outcome with
    | .throws => ⟨s1, some "NetworkError"⟩
    | .notOk => ⟨s1, some "Failed to get response"⟩
    | .ok .invalid => ⟨s1, some "SyntaxError"⟩
    | .ok .null => ⟨removeNode indicator s1, some "TypeError"⟩
    | .ok (.value reply) => ⟨addMessageToChat reply .bot true (removeNode indicator s1), none⟩

/-- The default text of the chatbot's error message. -/
def chatbotErrorDefault : String :=
  "Sorry, I'm having trouble responding right now. Please try again later."

/-- The function `sendMessage()`: `outcome` is what the request comes to and
`now` is `new Date().toISOString()`. -/
def sendMessage (outcome : ChatOutcome) (now : String) (s : Page) : Completion :=
  match s.chatbotInput, s.chatbotMessages with
  | some input, some _ =>
    let message := jsTrim input.value
    if message = "" then ⟨s, none⟩
    else
      let s1 := addMessageToChat (some message) .user false s
      let s2 := { s1 with chatbotInput := some { input with value := "", styleHeight := "auto" } }
      let (s3, typingIndicator) := addTypingIndicator s2
      let attempt := sendMessageTry outcome now message typingIndicator s3
      match attempt.thrown with
      | none => attempt
      | some _ =>
        let s4 := { attempt.page with console := attempt.page.console ++ ["Chatbot error:"] }
        match typingIndicator with
        | none => ⟨s4, some "TypeError"⟩
        | some indicator =>
          ⟨addMessageToChat (some (orDefault (s4.translations "chatbot_error") chatbotErrorDefault))
            .bot false (removeNode indicator s4), none⟩
  | _, _ => ⟨s, none⟩

/-! ## Form validation -/

/-- The regular expressions the script uses, over character classes. -/
inductive Regex where
  | nothing
  | empty
  | cls (p : Char → Bool)
  | seq (a b : Regex)
  | alt (a b : Regex)
  | star (a : Regex)

/-- Whether the expression matches the empty string. -/
def Regex.nullable : Regex → Bool
  | .nothing => false
  | .empty => true
  | .cls _ => false
  | .seq a b => a.nullable && b.nullable
  | .alt a b => a.nullable || b.nullable
  | .star _ => true

/-- The expression matching what is left of a match after the character `c`. -/
def Regex.deriv (c : Char) : Regex → Regex
  | .nothing => .nothing
  | .empty => .nothing
  | .cls p => if p c then .empty else .nothing
  | .seq a b =>
    if a.nullable then .alt (.seq (a.deriv c) b) (b.deriv c) else .seq (a.deriv c) b
  | .alt a b => .alt (a.deriv c) (b.deriv c)
  | .star a => .seq (a.deriv c) (.star a)

/-- The method `test` of an expression anchored by `^` and `$`: the whole
string matches. -/
def Regex.test (r : Regex) (s : String) : Bool :=
  (s.toList.foldl (fun q c => q.deriv c) r).nullable

/-- The expression `a+`. -/
def Regex.plus (a : Regex) : Regex :=
  .seq a (.star a)

/-- The expression `a{n}`. -/
def Regex.times (a : Regex) : Nat → Regex
  | 0 => .empty
  | n + 1 => .seq a (Regex.times a n)

/-- The class `[^\s@]`. -/
def notSpaceOrAt (c : Char) : Bool :=
  !(isJsWhitespace c) && c != '@'

/-- The class `[0-9]`, whose complement is `\D`. -/
def isDigit09 (c : Char) : Bool :=
  '0' ≤ c && c ≤ '9'

/-- The constant `emailRegex`: `/^[^\s@]+@[^\s@]+\.[^\s@]+$/`. -/
def emailRegex : Regex :=
  .seq (.plus (.cls notSpaceOrAt))
    (.seq (.cls (fun c => c == '@'))
      (.seq (.plus (.cls notSpaceOrAt))
        (.seq (.cls (fun c => c == '.')) (.plus (.cls notSpaceOrAt)))))

/-- The constant `phoneRegex`: `/^[0-9]{10}$/`. -/
def phoneRegex : Regex :=
  .times (.cls isDigit09) 10

/-- The call `value.replace(/\D/g, '')`. -/
def removeNonDigits (s : String) : String :=
  String.mk (s.toList.filter isDigit09)

/-- The property `length` of a string: its number of UTF-16 code units. -/
def jsLength (s : String) : Nat :=
  (s.toList.map (fun c => if c.toNat < 0x10000 then 1 else 2)).sum

/-- The value of a digit in radix `radix`, if the character is one. -/
def digitValue (radix : Nat) (c : Char) : Option Nat :=
  let v :=
    if '0' ≤ c && c ≤ '9' then c.toNat - '0'.toNat
    else if 'a' ≤ c && c ≤ 'z' then c.toNat - 'a'.toNat + 10
    else if 'A' ≤ c && c ≤ 'Z' then c.toNat - 'A'.toNat + 10
    else radix
  if v < radix then some v else none

/-- The longest run of radix-`radix` digits at the head of `cs`, as digit values. -/
def leadingDigits (radix : Nat) : List Char → List Nat
  | [] => []
  | c :: cs =>
    match digitValue radix c with
    | some v => v :: leadingDigits radix cs
    | none => []

/-- The function `parseInt(string)` without a radix argument; `none` is `NaN`. -/
def parseInt (s : String) : Option Int :=
  let cs := s.toList.dropWhile isJsWhitespace
  let negative := cs.head? = some '-'
  let cs1 := if cs.head? = some '-' || cs.head? = some '+' then cs.tail else cs
  let hex := cs1.take 2 = ['0', 'x'] || cs1.take 2 = ['0', 'X']
  let radix := if hex then 16 else 10
  let cs2 := if hex then cs1.drop 2 else cs1
  let digits := leadingDigits radix cs2
  if digits = [] then none
  else
    let n : Int := (digits.foldl (fun acc d => acc * radix + d) 0 : Nat)
    some (if negative then -n else n)

/-- A form field as `validateField` sees it: value, type, name, the `required`
attribute, its class list, and the text of the `.invalid-feedback` element of
its parent (`none` when there is none yet). -/
structure Field where
  value : String
  type : String := "text"
  name : String := ""
  required : Bool := false
  classList : List String := []
  feedback : Option String := none
  deriving DecidableEq, Repr

/-- The method `classList.toggle(token, force)`. -/
def classToggle (classes : List String) (token : String) (force : Bool) : List String :=
  if force then (if classes.contains token then classes else classes ++ [token])
  else classes.filter (fun c => c ≠ token)

/-- The checks of `validateField(field)`: the final `isValid` and `errorMessage`. -/
def checkField (tr : Translations) (field : Field) : Bool × String :=
  let value := jsTrim field.value
  let r0 : Bool × String := (true, "")
  let r1 :=
    if field.required && value = "" then
      (false, orDefault (tr "required_field") "This field is required")
    else r0
  let r2 :=
    if field.type = "email" && value ≠ "" then
      if !emailRegex.test value then
        (false, orDefault (tr "invalid_email") "Please enter a valid email address")
      else r1
    else r1
  let r3 :=
    if field.name = "contact_number" && value ≠ "" then
      if !phoneRegex.test (removeNonDigits value) then
        (false, orDefault (tr "invalid_phone") "Please enter a valid 10-digit phone number")
      else r2
    else r2
  let r4 :=
    if field.type = "password" && value ≠ "" then
      if jsLength value < 6 then
        (false, orDefault (tr "password_too_short") "Password must be at least 6 characters long")
      else r3
    else r3
  let r5 :=
    if field.name = "age" && value ≠ "" then
      match parseInt value with
      | some age =>
        if age < 18 || age > 65 then
          (false, orDefault (tr "invalid_age") "Age must be between 18 and 65")
        else r4
      | none => r4
    else r4
  r5

/-- The function `validateField(field)`: the value returned and the field
afterwards. -/
def validateField (tr : Translations) (field : Field) : Bool × Field :=
  let (isValid, errorMessage) := checkField tr field
  (isValid,
    { field with
      classList := classToggle (classToggle field.classList "is-valid" isValid) "is-invalid" (!isValid)
      feedback := some errorMessage })

/-- A form control as `validateField` reads it: value, type, name and the
`required` attribute. -/
structure Control where
  value : String
  type : String := "text"
  name : String := ""
  required : Bool := false
  deriving DecidableEq, Repr

/-- An element inside a form: its identity, the identity of its `parentNode`,
its class list, its text, and the control it is, if it is one. -/
structure FormNode where
  id : Nat
  parent : Nat
  classList : List String := []
  textContent : String := ""
  control : Option Control := none
  deriving DecidableEq, Repr

/-- A form: the elements inside it in document order, and the identity the next
created element gets.  An element whose `parent` is no element of the list is a
child of the form element itself. -/
structure Form where
  nodes : List FormNode
  nextId : Nat
  deriving DecidableEq, Repr

/-- The element with identity `id`, if it is in the document. -/
def nodeAt (nodes : List FormNode) (id : Nat) : Option FormNode :=
  nodes.find? (fun n => n.id == id)

/-- What `validateForm` decides and marks on an element: the control it is and
its classes. -/
def nodeCore (n : FormNode) : Option Control × List String :=
  (n.control, n.classList)

/-- Whether an element whose parent is `parent` lies inside the element
`ancestor`, following `parentNode` at most `fuel` times. -/
def isInside (nodes : List FormNode) (ancestor : Nat) : Nat → Nat → Bool
  | 0, _ => false
  | fuel + 1, parent =>
    parent == ancestor ||
      match nodeAt nodes parent with
      | some p => isInside nodes ancestor fuel p.parent
      | none => false

/-- The call `parent.querySelector('.invalid-feedback')`: the first element in
document order that lies inside `parent` and carries the class. -/
def findFeedback (nodes : List FormNode) (parent : Nat) : Option FormNode :=
  nodes.find? (fun n =>
    n.classList.contains "invalid-feedback" && isInside nodes parent (nodes.length + 1) n.parent)

/-- The list with `child` put right after the last element satisfying `inside`,
and at the end when there is none. -/
def insertAfterLast (inside : FormNode → Bool) (child : FormNode) :
    List FormNode → List FormNode
  | [] => [child]
  | n :: rest =>
    if rest.any inside then n :: insertAfterLast inside child rest
    else if inside n then n :: child :: rest
    else n :: insertAfterLast inside child rest

/-- The call `parent.appendChild(child)`: in document order the child comes
right after the last element inside `parent`. -/
def appendChild (nodes : List FormNode) (parent : Nat) (child : FormNode) : List FormNode :=
  insertAfterLast (fun n => isInside nodes parent (nodes.length + 1) n.parent) child nodes

/-- The field `validateField` sees for the control `c` that is the element `n`:
its own attributes and classes, and the text of the `.invalid-feedback` element
its parent finds. -/
def fieldView (nodes : List FormNode) (n : FormNode) (c : Control) : Field :=
  { value := c.value
    type := c.type
    name := c.name
    required := c.required
    classList := n.classList
    feedback := (findFeedback nodes n.parent).map (fun e => e.textContent) }

/-- The call `validateField(field)` on the element with identity `id` of a
form: the classes of the field are set, and the error text is written to the
`.invalid-feedback` element found from the field's parent, which is created as
the parent's last child when there is none. -/
def validateNode (tr : Translations) (id : Nat) (form : Form) : Bool × Form :=
  match nodeAt form.nodes id with
  | none => (true, form)
  | some n =>
    match n.control with
    | none => (true, form)
    | some c =>
      let r := validateField tr (fieldView form.nodes n c)
      let marked := form.nodes.map
        (fun m => if m.id == id then { m with classList := r.2.classList } else m)
      let errorMessage := r.2.feedback.getD ""
      match findFeedback marked n.parent with
      | some errorDiv =>
        let written := marked.map
          (fun m => if m.id == errorDiv.id then { m with textContent := errorMessage } else m)
        (r.1, { form with nodes := written })
      | none =>
        let created : FormNode :=
          { id := form.nextId, parent := n.parent, classList := ["invalid-feedback"],
            textContent := errorMessage }
        (r.1, { nodes := appendChild marked n.parent created, nextId := form.nextId + 1 })

/-- The constant `requiredFields` of `validateForm`: the identities of the
controls selected by `[required]`, in document order. -/
def requiredFields (form : Form) : List Nat :=
  (form.nodes.filter
    (fun n => match n.control with
      | some c => c.required
      | none => false)).map (fun n => n.id)

/-- The function `validateForm(form)`: `validateField` runs on every required
field in turn, and the result is whether all of them were valid. -/
def validateForm (tr : Translations) (form : Form) : Bool × Form :=
  (requiredFields form).foldl
    (fun acc id =>
      let r := validateNode tr id acc.2
      (if !r.1 then false else acc.1, r.2))
    (true, form)

/-- A whole drag of the chat widget: a start at `start` (from the button or the
header), the move events at `moves` in order (mouse or touch), and the end. -/
def dragRun (target : String) (start rect : Point) (moves : List Point) (endRect : Point)
    (s : Page) : Page :=
  endDrag endRect (moves.foldl (fun page client => drag client page) (startDrag target start rect s))

/-- The test `moveDistance > 5` of `drag`, for a move at `client` in a drag
started at `start`. -/
def movedFar (start client : Point) : Bool :=
  decide (|client.x - start.x| + |client.y - start.y| > 5)

/-! ## Regular expressions: what a match is -/

/-- The strings an expression matches. -/
inductive Regex.Matches : Regex → List Char → Prop where
  | empty : Regex.Matches .empty []
  | cls {p : Char → Bool} {c : Char} : p c = true → Regex.Matches (.cls p) [c]
  | seq {a b : Regex} {l1 l2 : List Char} :
      Regex.Matches a l1 → Regex.Matches b l2 → Regex.Matches (.seq a b) (l1 ++ l2)
  | altLeft {a b : Regex} {l : List Char} : Regex.Matches a l → Regex.Matches (.alt a b) l
  | altRight {a b : Regex} {l : List Char} : Regex.Matches b l → Regex.Matches (.alt a b) l
  | starNil {a : Regex} : Regex.Matches (.star a) []
  | starCons {a : Regex} {l1 l2 : List Char} :
      Regex.Matches a l1 → Regex.Matches (.star a) l2 → Regex.Matches (.star a) (l1 ++ l2)

/-- The shape of an accepted email address, in the words of the description: no
white space, exactly one `@` with at least one character before it, and after
the `@` a `.` with at least one character before it and at least one after it. -/
def EmailShape (v : List Char) : Prop :=
  (∀ c ∈ v, isJsWhitespace c = false) ∧
  v.count '@' = 1 ∧
  ∃ name rest : List Char, v = name ++ '@' :: rest ∧ name ≠ [] ∧
    ∃ host tail : List Char, rest = host ++ '.' :: tail ∧ host ≠ [] ∧ tail ≠ []

/-! ## Table export -/

/-- A cell of a table row: a `th` or a `td`, with its text. -/
structure TableCell where
  isHeader : Bool
  textContent : String
  deriving DecidableEq, Repr

/-- A `tr` of a table: whether it lies in a `tbody`, and its cells. -/
structure TableRow where
  inBody : Bool
  cells : List TableCell
  deriving DecidableEq, Repr

/-- A table: its rows in document order. -/
abbrev Table := List TableRow

/-- A plain object with string values, as its own properties in the order they
were first assigned. -/
abbrev JsObject := List (String × String)

/-- The own property `key` of an object. -/
def JsObject.get (o : JsObject) (key : String) : Option String :=
  (o.find? (fun kv => kv.1 == key)).map Prod.snd

/-- The assignment `o[key] = value` of a string to an object created by `{}`:
an existing property is overwritten, a new one is added, and an assignment to
`__proto__` goes to the setter inherited from `Object.prototype`, which ignores
a string. -/
def JsObject.set (o : JsObject) (key value : String) : JsObject :=
  if key = "__proto__" then o
  else if o.any (fun kv => kv.1 == key) then
    o.map (fun kv => if kv.1 == key then (key, value) else kv)
  else o ++ [(key, value)]

/-- The constant `headers` of `exportToJSON`: the trimmed text of every `th` of
the table. -/
def tableHeaders (table : Table) : List String :=
  ((table.flatMap (fun row => row.cells)).filter (fun cell => cell.isHeader)).map
    (fun th => jsTrim th.textContent)

/-- The constant `cells` of `exportToJSON`: the `td` elements of a row. -/
def rowCells (row : TableRow) : List TableCell :=
  row.cells.filter (fun cell => !cell.isHeader)

/-- The loop `headers.forEach((header, index) => ...)` of `exportToJSON` from
position `index` on, over the headers still to visit. -/
def forEachHeader (cells : List TableCell) : Nat → List String → JsObject → JsObject
  | _, [], rowData => rowData
  | index, header :: headers, rowData =>
    forEachHeader cells (index + 1) headers
      (match cells[index]? with
        | some cell => rowData.set header (jsTrim cell.textContent)
        | none => rowData)

/-- The callback of `rows.map` in `exportToJSON`: the object built for one row,
starting from `{}`. -/
def rowData (headers : List String) (row : TableRow) : JsObject :=
  forEachHeader (rowCells row) 0 headers []

/-- The constant `data` of `exportToJSON`: one object for each `tbody tr`. -/
def exportData (table : Table) : List JsObject :=
  (table.filter (fun row => row.inBody)).map (rowData (tableHeaders table))

/-- The function `downloadFile(content, filename, contentType)`. -/
def downloadFile (content filename contentType : String) (s : Page) : Page :=
  showToast ("Data exported as " ++ filename) "success"
    { s with downloads := s.downloads ++ [⟨content, filename, contentType⟩] }

/-- The function `exportToJSON(table)`, with `JSON.stringify(data, null, 2)` as a
parameter. -/
def exportToJSON (stringify : List JsObject → String) (table : Table) (s : Page) : Page :=
  downloadFile (stringify (exportData table)) "bloodlink-data.json" "application/json" s

/-! ## Concrete inputs used in the evaluations below -/

/-- A text file of 16MB and one byte. -/
def oversizedTextFile : File :=
  ⟨"notes.txt", "text/plain", 16 * 1024 * 1024 + 1⟩

/-- A PDF of 16MB and one byte. -/
def oversizedPdf : File :=
  ⟨"scan.pdf", "application/pdf", 16 * 1024 * 1024 + 1⟩

/-- A page whose stored theme and `data-theme` are `auto`. -/
def autoThemePage : Page :=
  { dataTheme := some "auto"
    localStorage := fun k => if k = "theme" then some "auto" else none }

/-- A page whose stored theme is `dark`. -/
def darkThemePage : Page :=
  { dataTheme := some "dark"
    localStorage := fun k => if k = "theme" then some "dark" else none }

/-- A 300 by 200 viewport holding a 400 by 100 chat widget that is being
dragged. -/
def narrowViewportPage : Page :=
  { innerWidth := 300
    innerHeight := 200
    widget := { offsetWidth := 400, offsetHeight := 100 }
    drag := { isDragging := true } }

/-- A 1000 by 800 viewport holding a 60 by 60 chat widget that is being dragged
from (950, 750), with a saved position stored. -/
def wideViewportPage : Page :=
  { innerWidth := 1000
    innerHeight := 800
    widget := { offsetWidth := 60, offsetHeight := 60 }
    drag := { isDragging := true, startPos := ⟨950, 750⟩, dragOffset := ⟨10, 10⟩ }
    localStorage := fun k => if k = "chatbotPosition" then some (positionJson ⟨2000, -5⟩) else none }

/-- A page with an empty chat and `  hi  ` typed into the input. -/
def chatPage : Page :=
  { chatbotInput := some ⟨"  hi  ", ""⟩
    chatbotMessages := some []
    currentLanguage := "kn" }

/-- A page with an empty chat and only white space typed into the input. -/
def blankChatPage : Page :=
  { chatbotInput := some ⟨" \t\n", ""⟩
    chatbotMessages := some [] }

/-- A text field named `age` holding `abc`. -/
def ageFieldAbc : Field :=
  { value := "abc", type := "text", name := "age" }

/-- A password field holding five letters and a trailing space. -/
def paddedPasswordField : Field :=
  { value := "abcde ", type := "password", name := "password" }

/-- A password field holding six letters. -/
def sixLetterPasswordField : Field :=
  { value := "abcdef", type := "password", name := "password" }

/-- A page with a closed chat panel and its toggle button. -/
def closedPanelPage : Page :=
  { chatbotPanel := some false
    hasToggleBtn := true
    toggleIcon := some "fas fa-robot" }

/-- An email field holding `ann@clinic.example.org`. -/
def emailField : Field :=
  { value := "ann@clinic.example.org", type := "email", name := "email" }

/-- A contact number field holding a formatted ten-digit number. -/
def phoneField : Field :=
  { value := "(080) 555-0199", type := "tel", name := "contact_number" }

/-- A contact number field holding nine digits. -/
def shortPhoneField : Field :=
  { value := "080 555 019", type := "tel", name := "contact_number" }

/-- A table with the single header `__proto__` and one body row holding `x`. -/
def protoTable : Table :=
  [⟨false, [⟨true, "__proto__"⟩]⟩, ⟨true, [⟨false, "x"⟩]⟩]

/-- A form whose required fields `full_name` (empty) and `age` (`30`) are
children of one `div`. -/
def sharedParentForm : Form :=
  { nodes :=
      [{ id := 1, parent := 0 },
       { id := 2, parent := 1,
         control := some { value := "", name := "full_name", required := true } },
       { id := 3, parent := 1,
         control := some { value := "30", name := "age", required := true } }]
    nextId := 4 }

/-! ## Theorems: file upload -/

/-- Membership of a MIME type in `allowedTypes`, spelled out. -/
theorem allowedTypes_contains (t : String) :
    allowedTypes.contains t = true ↔
      (t = "image/png" ∨ t = "image/jpeg" ∨ t = "image/jpg" ∨ t = "application/pdf") := by
  simp [allowedTypes]

/-- C1: `handleFileSelect` accepts a file (no toast is added, and the upload
area, where the page has one, gets the selected-file display) exactly when the
file's type is one of the four allowed MIME types and its size is at most
16*1024*1024 bytes. -/
theorem handleFileSelect_accepts_iff (formatFileSize : Nat → String) (file : File) (s : Page) :
    ((handleFileSelect formatFileSize file s).toasts = s.toasts ∧
      (handleFileSelect formatFileSize file s).uploadArea
        = s.uploadArea.map (fun _ => fileSelectedHtml formatFileSize file))
    ↔ ((file.type = "image/png" ∨ file.type = "image/jpeg" ∨ file.type = "image/jpg"
          ∨ file.type = "application/pdf") ∧ file.size ≤ 16 * 1024 * 1024) := by
  have hmem : file.type ∈ allowedTypes ↔
      (file.type = "image/png" ∨ file.type = "image/jpeg" ∨ file.type = "image/jpg"
        ∨ file.type = "application/pdf") := by
    rw [← allowedTypes_contains]; simp
  have hmax : maxSize = 16 * 1024 * 1024 := rfl
  rw [← hmem, ← hmax]
  unfold handleFileSelect
  by_cases ht : file.type ∈ allowedTypes
  · by_cases hs : maxSize < file.size
    · simp [ht, hs, showToast]
    · cases hu : s.uploadArea <;> simp [ht, hs, hu, Nat.le_of_not_lt hs]
  · simp [ht, showToast]

/-- C2 (counterexample): a text file of 16MB and one byte is over the size limit,
yet the toast shown is the invalid-file-type one, not the file-too-large one. -/
theorem handleFileSelect_oversized_wrong_type :
    oversizedTextFile.size > 16 * 1024 * 1024 ∧
    (handleFileSelect (fun _ => "") oversizedTextFile {}).toasts
      = [⟨"Please select a PNG, JPG, or PDF file.", "error", 5000⟩] ∧
    (handleFileSelect (fun _ => "") oversizedTextFile {}).toasts
      ≠ [⟨"File size must be less than 16MB.", "error", 5000⟩] := by
  refine ⟨by decide, ?_, ?_⟩ <;>
    simp [handleFileSelect, oversizedTextFile, allowedTypes, showToast, orDefault]

/-- C2 (amended): for every file over 16MB, `handleFileSelect` leaves the upload
area as it was and shows exactly one toast of type `error`: the file-too-large
toast (`translations.file_too_large` or its default text) when the file's type
is one of the four allowed types, the invalid-file-type toast otherwise. -/
theorem handleFileSelect_oversized (formatFileSize : Nat → String) (file : File) (s : Page)
    (hsize : file.size > 16 * 1024 * 1024) :
    (handleFileSelect formatFileSize file s).uploadArea = s.uploadArea ∧
    (handleFileSelect formatFileSize file s).toasts = s.toasts ++
      [⟨if file.type = "image/png" ∨ file.type = "image/jpeg" ∨ file.type = "image/jpg"
            ∨ file.type = "application/pdf"
          then orDefault (s.translations "file_too_large") "File size must be less than 16MB."
          else orDefault (s.translations "invalid_file_type")
            "Please select a PNG, JPG, or PDF file.",
        "error", 5000⟩] := by
  have hmem : file.type ∈ allowedTypes ↔
      (file.type = "image/png" ∨ file.type = "image/jpeg" ∨ file.type = "image/jpg"
        ∨ file.type = "application/pdf") := by
    rw [← allowedTypes_contains]; simp
  have hs : maxSize < file.size := hsize
  unfold handleFileSelect
  by_cases ht : file.type ∈ allowedTypes
  · rw [if_pos (hmem.mp ht)]
    simp [ht, hs, showToast]
  · rw [if_neg (fun hd => ht (hmem.mpr hd))]
    simp [ht, showToast]

/-- C2 (witness): the amended statement at a PDF of 16MB and one byte, on a page
whose upload area holds `old`. -/
theorem handleFileSelect_oversized_witness :
    oversizedPdf.size > 16 * 1024 * 1024 ∧
    ((handleFileSelect (fun _ => "") oversizedPdf { uploadArea := some "old" }).uploadArea
        = ({ uploadArea := some "old" } : Page).uploadArea ∧
      (handleFileSelect (fun _ => "") oversizedPdf { uploadArea := some "old" }).toasts
        = ({ uploadArea := some "old" } : Page).toasts ++
          [⟨if oversizedPdf.type = "image/png" ∨ oversizedPdf.type = "image/jpeg"
                ∨ oversizedPdf.type = "image/jpg" ∨ oversizedPdf.type = "application/pdf"
              then orDefault (({ uploadArea := some "old" } : Page).translations "file_too_large")
                "File size must be less than 16MB."
              else orDefault (({ uploadArea := some "old" } : Page).translations "invalid_file_type")
                "Please select a PNG, JPG, or PDF file.",
            "error", 5000⟩]) :=
  ⟨by decide, handleFileSelect_oversized _ _ _ (by decide)⟩

/-! ## Theorems: theme -/

/-- After `setTheme`, the stored theme and `data-theme` are the argument. -/
theorem setTheme_stores (theme : String) (s : Page) :
    (setTheme theme s).localStorage "theme" = some theme ∧
    (setTheme theme s).dataTheme = some theme := by
  simp [setTheme, setItem]

/-- After `toggleTheme`, the stored theme and `data-theme` are the same value,
`light` when `data-theme` was `dark` and `dark` otherwise. -/
theorem toggleTheme_stores (s : Page) :
    (toggleTheme s).localStorage "theme"
      = some (if s.dataTheme = some "dark" then "light" else "dark") ∧
    (toggleTheme s).dataTheme
      = some (if s.dataTheme = some "dark" then "light" else "dark") := by
  simp [toggleTheme, setTheme, setItem]

/-- C3 (counterexample): from `data-theme="auto"`, two calls of `toggleTheme`
leave `data-theme` at `light`, not at `auto`. -/
theorem toggleTheme_twice_from_auto :
    (toggleTheme (toggleTheme autoThemePage)).dataTheme = some "light" ∧
    (toggleTheme (toggleTheme autoThemePage)).dataTheme ≠ autoThemePage.dataTheme := by
  simp [toggleTheme_stores, autoThemePage]

/-- C3 (amended): when `data-theme` is `light` or `dark`, calling `toggleTheme`
twice leaves `data-theme` equal to its original value. -/
theorem toggleTheme_twice (s : Page)
    (h : s.dataTheme = some "light" ∨ s.dataTheme = some "dark") :
    (toggleTheme (toggleTheme s)).dataTheme = s.dataTheme := by
  rcases h with h | h <;> simp [toggleTheme_stores, h]

/-- C3 (witness): the amended statement on a page whose theme is `dark`. -/
theorem toggleTheme_twice_witness :
    (darkThemePage.dataTheme = some "light" ∨ darkThemePage.dataTheme = some "dark") ∧
    (toggleTheme (toggleTheme darkThemePage)).dataTheme = darkThemePage.dataTheme :=
  ⟨Or.inr rfl, toggleTheme_twice darkThemePage (Or.inr rfl)⟩

/-- C8 (counterexample): with `auto` stored under `theme`, the state reached by
`initializeTheme` and no toggle still stores `auto`, which is neither `light`
nor `dark`. -/
theorem themeRun_keeps_unknown_theme :
    (themeRun 0 autoThemePage).localStorage "theme" = some "auto" ∧
    ¬ ((themeRun 0 autoThemePage).localStorage "theme" = some "light" ∨
       (themeRun 0 autoThemePage).localStorage "theme" = some "dark") := by
  simp [themeRun, initializeTheme, setTheme_stores, autoThemePage, orDefault]

/-- C8 (amended): in every state reached by `initializeTheme` followed by `n`
calls of `toggleTheme`, the value stored under `theme` is `light` or `dark`,
provided at least one toggle was made or the value stored at the start was
absent, empty, `light` or `dark`. -/
theorem themeRun_stored_theme (n : Nat) (s : Page)
    (h : 1 ≤ n ∨ s.localStorage "theme" = none ∨ s.localStorage "theme" = some "" ∨
      s.localStorage "theme" = some "light" ∨ s.localStorage "theme" = some "dark") :
    (themeRun n s).localStorage "theme" = some "light" ∨
    (themeRun n s).localStorage "theme" = some "dark" := by
  cases n with
  | zero =>
    rcases h with h | h | h | h | h
    · omega
    all_goals simp [themeRun, initializeTheme, setTheme_stores, h, orDefault]
  | succ m =>
    unfold themeRun
    rw [Function.iterate_succ_apply', (toggleTheme_stores _).1]
    by_cases hd : (toggleTheme^[m] (initializeTheme s)).dataTheme = some "dark" <;> simp [hd]

/-- C8 (witness): the amended statement after three toggles from a page that
stores `auto`. -/
theorem themeRun_stored_theme_witness :
    (1 ≤ 3 ∨ autoThemePage.localStorage "theme" = none ∨
      autoThemePage.localStorage "theme" = some "" ∨
      autoThemePage.localStorage "theme" = some "light" ∨
      autoThemePage.localStorage "theme" = some "dark") ∧
    ((themeRun 3 autoThemePage).localStorage "theme" = some "light" ∨
      (themeRun 3 autoThemePage).localStorage "theme" = some "dark") :=
  ⟨Or.inl (by decide), themeRun_stored_theme 3 autoThemePage (Or.inl (by decide))⟩

/-! ## Theorems: chat widget position -/

/-- The clamp never goes below zero, and stays at or below `maxX` when `maxX`
is not negative. -/
theorem constrain_bounds (x maxX : Int) :
    0 ≤ constrain x maxX ∧ (0 ≤ maxX → constrain x maxX ≤ maxX) := by
  unfold constrain
  constructor
  · exact le_max_left 0 _
  · intro h
    exact max_le h (min_le_right x maxX)

/-- C4 (counterexample): in a 300 pixel wide viewport, a drag of a 400 pixel wide
widget writes `left = 0`, which is above `innerWidth - offsetWidth = -100`. -/
theorem drag_widget_wider_than_viewport :
    (drag ⟨10, 10⟩ narrowViewportPage).widget.styleLeft = some 0 ∧
    ¬ ((0 : Int) ≤ narrowViewportPage.innerWidth - narrowViewportPage.widget.offsetWidth) := by
  decide

/-- C4 (amended): when the widget is no larger than the viewport
(`offsetWidth ≤ innerWidth` and `offsetHeight ≤ innerHeight`), the `left` and
`top` written by a mouse drag, by a touch drag and by the restore of a saved
position all satisfy `0 ≤ left ≤ innerWidth - offsetWidth` and
`0 ≤ top ≤ innerHeight - offsetHeight`, for every pointer position and every
saved position.  The drag is stated on a page `s` that is dragging, the restore
on a page `r` that stores a position. -/
theorem chat_widget_within_viewport
    (s : Page) (client touch : Point)
    (hdragging : s.drag.isDragging = true)
    (hw : s.widget.offsetWidth ≤ s.innerWidth) (hh : s.widget.offsetHeight ≤ s.innerHeight)
    (r : Page) (jsonParse : String → ParsedPosition) (saved : String) (left top : Int)
    (hsaved : r.localStorage "chatbotPosition" = some saved) (hne : saved ≠ "")
    (hparse : jsonParse saved = .position left top)
    (hw2 : r.widget.offsetWidth ≤ r.innerWidth) (hh2 : r.widget.offsetHeight ≤ r.innerHeight) :
    (∃ x y, (drag client s).widget.styleLeft = some x ∧ (drag client s).widget.styleTop = some y ∧
      0 ≤ x ∧ x ≤ s.innerWidth - s.widget.offsetWidth ∧
      0 ≤ y ∧ y ≤ s.innerHeight - s.widget.offsetHeight) ∧
    (∃ x y, (dragTouch touch s).widget.styleLeft = some x ∧
      (dragTouch touch s).widget.styleTop = some y ∧
      0 ≤ x ∧ x ≤ s.innerWidth - s.widget.offsetWidth ∧
      0 ≤ y ∧ y ≤ s.innerHeight - s.widget.offsetHeight) ∧
    (∃ x y, (restorePosition jsonParse r).widget.styleLeft = some x ∧
      (restorePosition jsonParse r).widget.styleTop = some y ∧
      0 ≤ x ∧ x ≤ r.innerWidth - r.widget.offsetWidth ∧
      0 ≤ y ∧ y ≤ r.innerHeight - r.widget.offsetHeight) := by
  have hmx : 0 ≤ s.innerWidth - s.widget.offsetWidth := by omega
  have hmy : 0 ≤ s.innerHeight - s.widget.offsetHeight := by omega
  have hrx : 0 ≤ r.innerWidth - r.widget.offsetWidth := by omega
  have hry : 0 ≤ r.innerHeight - r.widget.offsetHeight := by omega
  refine ⟨?_, ?_, ?_⟩
  · refine ⟨constrain (client.x - s.drag.dragOffset.x) (s.innerWidth - s.widget.offsetWidth),
      constrain (client.y - s.drag.dragOffset.y) (s.innerHeight - s.widget.offsetHeight),
      by simp [drag, hdragging], by simp [drag, hdragging],
      (constrain_bounds _ _).1, (constrain_bounds _ _).2 hmx,
      (constrain_bounds _ _).1, (constrain_bounds _ _).2 hmy⟩
  · refine ⟨constrain (touch.x - s.drag.dragOffset.x) (s.innerWidth - s.widget.offsetWidth),
      constrain (touch.y - s.drag.dragOffset.y) (s.innerHeight - s.widget.offsetHeight),
      by simp [dragTouch, drag, hdragging], by simp [dragTouch, drag, hdragging],
      (constrain_bounds _ _).1, (constrain_bounds _ _).2 hmx,
      (constrain_bounds _ _).1, (constrain_bounds _ _).2 hmy⟩
  · refine ⟨constrain left (r.innerWidth - r.widget.offsetWidth),
      constrain top (r.innerHeight - r.widget.offsetHeight),
      by simp [restorePosition, hsaved, hne, hparse],
      by simp [restorePosition, hsaved, hne, hparse],
      (constrain_bounds _ _).1, (constrain_bounds _ _).2 hrx,
      (constrain_bounds _ _).1, (constrain_bounds _ _).2 hry⟩

/-- C4 (witness): the amended statement in a 1000 by 800 viewport with a 60 by
60 widget, for a mouse at (5000, -3), a touch at (-20, 9000) and a saved
position (2000, -5) outside the viewport. -/
theorem chat_widget_within_viewport_witness :
    (wideViewportPage.drag.isDragging = true ∧
      wideViewportPage.widget.offsetWidth ≤ wideViewportPage.innerWidth ∧
      wideViewportPage.widget.offsetHeight ≤ wideViewportPage.innerHeight ∧
      wideViewportPage.localStorage "chatbotPosition" = some (positionJson ⟨2000, -5⟩) ∧
      positionJson ⟨2000, -5⟩ ≠ "") ∧
    ((∃ x y, (drag ⟨5000, -3⟩ wideViewportPage).widget.styleLeft = some x ∧
      (drag ⟨5000, -3⟩ wideViewportPage).widget.styleTop = some y ∧
      0 ≤ x ∧ x ≤ wideViewportPage.innerWidth - wideViewportPage.widget.offsetWidth ∧
      0 ≤ y ∧ y ≤ wideViewportPage.innerHeight - wideViewportPage.widget.offsetHeight) ∧
    (∃ x y, (dragTouch ⟨-20, 9000⟩ wideViewportPage).widget.styleLeft = some x ∧
      (dragTouch ⟨-20, 9000⟩ wideViewportPage).widget.styleTop = some y ∧
      0 ≤ x ∧ x ≤ wideViewportPage.innerWidth - wideViewportPage.widget.offsetWidth ∧
      0 ≤ y ∧ y ≤ wideViewportPage.innerHeight - wideViewportPage.widget.offsetHeight) ∧
    (∃ x y, (restorePosition (fun _ => .position 2000 (-5)) wideViewportPage).widget.styleLeft
        = some x ∧
      (restorePosition (fun _ => .position 2000 (-5)) wideViewportPage).widget.styleTop = some y ∧
      0 ≤ x ∧ x ≤ wideViewportPage.innerWidth - wideViewportPage.widget.offsetWidth ∧
      0 ≤ y ∧ y ≤ wideViewportPage.innerHeight - wideViewportPage.widget.offsetHeight)) :=
  ⟨⟨rfl, by decide, by decide, rfl, by decide⟩,
    chat_widget_within_viewport wideViewportPage ⟨5000, -3⟩ ⟨-20, 9000⟩ rfl (by decide) (by decide)
      wideViewportPage (fun _ => .position 2000 (-5)) (positionJson ⟨2000, -5⟩) 2000 (-5)
      rfl (by decide) rfl (by decide) (by decide)⟩

/-! ## Theorems: language -/

/-- The success branch of `changeLanguage` issues no request. -/
theorem applyLanguage_requests (json : Translations) (lang : String) (s : Page) :
    (applyLanguage json lang s).requests = s.requests := by
  simp [applyLanguage, updateLanguageDisplay, updatePageText]

/-- A call `changeLanguage('en')` fetches the English file and nothing else. -/
theorem changeLanguage_en_requests (net : Network) (s : Page) :
    (changeLanguage net "en" s).requests = s.requests ++ [⟨i18nUrl "en", "GET", none⟩] := by
  rw [changeLanguage]
  cases h : net s.requests.length (i18nUrl "en") with
  | throws => simp
  | notOk => simp
  | ok json => cases json <;> simp [applyLanguage_requests]

/-- The requests a call of `changeLanguage` issues: the file of `lang`, followed
by the English file when `lang` is not `en` and the first load threw (the
`fetch` rejected, or `response.json()` did). -/
theorem changeLanguage_requests (net : Network) (lang : String) (s : Page) :
    (changeLanguage net lang s).requests = s.requests ++ [⟨i18nUrl lang, "GET", none⟩] ∨
    (lang ≠ "en" ∧ (changeLanguage net lang s).requests
      = s.requests ++ [⟨i18nUrl lang, "GET", none⟩, ⟨i18nUrl "en", "GET", none⟩]) := by
  rw [changeLanguage]
  cases h : net s.requests.length (i18nUrl lang) with
  | notOk => simp
  | throws =>
    by_cases hl : lang = "en"
    · simp [hl]
    · simp [hl, changeLanguage_en_requests]
  | ok json =>
    cases json with
    | some t => simp [applyLanguage_requests]
    | none =>
      by_cases hl : lang = "en"
      · simp [hl]
      · simp [hl, changeLanguage_en_requests]

/-- C5: for a language other than `en` whose fetch throws, `changeLanguage`
issues exactly two requests, the file of `lang` and then the file of `en`; a
call for `en` issues exactly one request whatever its outcome, so it never
retries; and every call issues at most two requests.  The function is total, so
every call terminates. -/
theorem changeLanguage_retries_once (net : Network) (lang : String) (s : Page)
    (hlang : lang ≠ "en") (hthrows : net s.requests.length (i18nUrl lang) = .throws) :
    (changeLanguage net lang s).requests
      = s.requests ++ [⟨i18nUrl lang, "GET", none⟩, ⟨i18nUrl "en", "GET", none⟩] ∧
    (∀ (net2 : Network) (s2 : Page),
      (changeLanguage net2 "en" s2).requests = s2.requests ++ [⟨i18nUrl "en", "GET", none⟩]) ∧
    (∀ (net2 : Network) (lang2 : String) (s2 : Page),
      (changeLanguage net2 lang2 s2).requests.length ≤ s2.requests.length + 2) := by
  refine ⟨?_, changeLanguage_en_requests, ?_⟩
  · rw [changeLanguage]
    simp [hthrows, hlang, changeLanguage_en_requests]
  · intro net2 lang2 s2
    rcases changeLanguage_requests net2 lang2 s2 with h | ⟨_, h⟩ <;> simp [h]

/-- C5 (witness): loading `kn` on the initial page over a network on which every
fetch throws. -/
theorem changeLanguage_retries_once_witness :
    ("kn" ≠ "en" ∧
      (fun _ _ => FetchOutcome.throws : Network) ({} : Page).requests.length (i18nUrl "kn")
        = .throws) ∧
    ((changeLanguage (fun _ _ => .throws) "kn" {}).requests
        = ({} : Page).requests ++ [⟨i18nUrl "kn", "GET", none⟩, ⟨i18nUrl "en", "GET", none⟩] ∧
      (∀ (net2 : Network) (s2 : Page),
        (changeLanguage net2 "en" s2).requests = s2.requests ++ [⟨i18nUrl "en", "GET", none⟩]) ∧
      (∀ (net2 : Network) (lang2 : String) (s2 : Page),
        (changeLanguage net2 lang2 s2).requests.length ≤ s2.requests.length + 2)) :=
  ⟨⟨by decide, rfl⟩, changeLanguage_retries_once (fun _ _ => .throws) "kn" {} (by decide) rfl⟩

/-- A call `changeLanguage('en')` whose fetch throws changes none of the
language state. -/
theorem changeLanguage_en_throws_frame (net : Network) (s : Page)
    (h : net s.requests.length (i18nUrl "en") = .throws) :
    (changeLanguage net "en" s).translations = s.translations ∧
    (changeLanguage net "en" s).currentLanguage = s.currentLanguage ∧
    (changeLanguage net "en" s).localStorage = s.localStorage ∧
    (changeLanguage net "en" s).htmlLang = s.htmlLang := by
  rw [changeLanguage]
  simp [h]

/-- C6: when the response for `lang` is not ok, or the fetch for `lang` throws
and so does the fallback fetch for `en`, `changeLanguage(lang)` leaves the
translations table, `currentLanguage`, the stored `language` key and the
document's `lang` attribute as they were. -/
theorem changeLanguage_failure_frame (net : Network) (lang : String) (s : Page)
    (hfail : net s.requests.length (i18nUrl lang) = .notOk ∨
      (net s.requests.length (i18nUrl lang) = .throws ∧
        net (s.requests.length + 1) (i18nUrl "en") = .throws)) :
    (changeLanguage net lang s).translations = s.translations ∧
    (changeLanguage net lang s).currentLanguage = s.currentLanguage ∧
    (changeLanguage net lang s).localStorage "language" = s.localStorage "language" ∧
    (changeLanguage net lang s).htmlLang = s.htmlLang := by
  rcases hfail with h | ⟨h1, h2⟩
  · rw [changeLanguage]
    simp [h]
  · by_cases hl : lang = "en"
    · subst hl
      obtain ⟨a, b, c, d⟩ := changeLanguage_en_throws_frame net s h1
      exact ⟨a, b, by rw [c], d⟩
    · rw [changeLanguage]
      simp only [h1, hl, ne_eq, not_false_eq_true, if_true]
      obtain ⟨a, b, c, d⟩ := changeLanguage_en_throws_frame net
        { s with
          requests := s.requests ++ [⟨i18nUrl lang, "GET", none⟩]
          console := s.console ++ ["Error loading language file:"] }
        (by simpa using h2)
      exact ⟨a, b, by rw [c], d⟩

/-- C6 (witness): loading `hi` on a Kannada page over a network on which every
fetch throws. -/
theorem changeLanguage_failure_frame_witness :
    ((fun _ _ => FetchOutcome.throws : Network)
        ({ currentLanguage := "kn", htmlLang := "kn" } : Page).requests.length (i18nUrl "hi")
          = .notOk ∨
      ((fun _ _ => FetchOutcome.throws : Network)
          ({ currentLanguage := "kn", htmlLang := "kn" } : Page).requests.length (i18nUrl "hi")
            = .throws ∧
        (fun _ _ => FetchOutcome.throws : Network)
          (({ currentLanguage := "kn", htmlLang := "kn" } : Page).requests.length + 1)
            (i18nUrl "en") = .throws)) ∧
    ((changeLanguage (fun _ _ => .throws) "hi" { currentLanguage := "kn", htmlLang := "kn" }).translations
        = ({ currentLanguage := "kn", htmlLang := "kn" } : Page).translations ∧
      (changeLanguage (fun _ _ => .throws) "hi" { currentLanguage := "kn", htmlLang := "kn" }).currentLanguage
        = ({ currentLanguage := "kn", htmlLang := "kn" } : Page).currentLanguage ∧
      (changeLanguage (fun _ _ => .throws) "hi" { currentLanguage := "kn", htmlLang := "kn" }).localStorage
          "language"
        = ({ currentLanguage := "kn", htmlLang := "kn" } : Page).localStorage "language" ∧
      (changeLanguage (fun _ _ => .throws) "hi" { currentLanguage := "kn", htmlLang := "kn" }).htmlLang
        = ({ currentLanguage := "kn", htmlLang := "kn" } : Page).htmlLang) :=
  ⟨Or.inr ⟨rfl, rfl⟩,
    changeLanguage_failure_frame (fun _ _ => .throws) "hi" { currentLanguage := "kn", htmlLang := "kn" }
      (Or.inr ⟨rfl, rfl⟩)⟩

/-! ## Theorems: chat messages -/

/-- Removing a node by an identity no child carries leaves the children as they
are. -/
theorem filter_fresh_id (children : List ChatNode) (k j : Nat)
    (hfresh : ∀ n ∈ children, n.id < k) (hj : k ≤ j) :
    children.filter (fun n => n.id ≠ j) = children := by
  rw [List.filter_eq_self]
  intro n hn
  have := hfresh n hn
  simp only [ne_eq, decide_not, Bool.not_eq_true', decide_eq_false_iff_not]
  omega

/-- C7: with the chat elements on the page and a non-blank input, whatever the
request comes to, `sendMessage` completes without a thrown exception and leaves
in `#chatbotMessages` the earlier children followed by the user's message and
exactly one bot message, the typing indicator being gone.  The bot message is
the reply when the response is ok and carries one; in every other case (thrown
fetch, non-ok response, unreadable or `null` body) it is
`translations.chatbot_error` or the default apology. -/
theorem sendMessage_always_answers (outcome : ChatOutcome) (now : String) (s : Page)
    (input : ChatInput) (children : List ChatNode)
    (hinput : s.chatbotInput = some input) (hmsgs : s.chatbotMessages = some children)
    (hnonblank : jsTrim input.value ≠ "")
    (hfresh : ∀ n ∈ children, n.id < s.nextNodeId) :
    (sendMessage outcome now s).thrown = none ∧
    (sendMessage outcome now s).page.chatbotMessages = some (children ++
      [⟨s.nextNodeId, .message .user (some (jsTrim input.value)) false⟩,
       ⟨s.nextNodeId + 2,
        match outcome with
        | .ok (.value reply) => .message .bot reply true
        | _ => .message .bot
            (some (orDefault (s.translations "chatbot_error") chatbotErrorDefault)) false⟩]) := by
  have hk := filter_fresh_id children s.nextNodeId (s.nextNodeId + 1) hfresh (by omega)
  have hk2 : children.filter (fun n => !decide (n.id = s.nextNodeId + 1)) = children := by
    simpa using hk
  unfold sendMessage
  rw [hinput, hmsgs]
  simp only [hnonblank, if_false]
  rcases outcome with _ | _ | (_ | _ | reply) <;>
    simp [sendMessageTry, addTypingIndicator, addMessageToChat, removeNode, hmsgs,
      List.filter_append, hk2]

/-- C7 (witness): `  hi  ` sent from an empty chat when the fetch throws. -/
theorem sendMessage_always_answers_witness :
    (chatPage.chatbotInput = some ⟨"  hi  ", ""⟩ ∧ chatPage.chatbotMessages = some [] ∧
      jsTrim (⟨"  hi  ", ""⟩ : ChatInput).value ≠ "" ∧
      ∀ n ∈ ([] : List ChatNode), n.id < chatPage.nextNodeId) ∧
    ((sendMessage .throws "2024-01-01T00:00:00.000Z" chatPage).thrown = none ∧
      (sendMessage .throws "2024-01-01T00:00:00.000Z" chatPage).page.chatbotMessages = some ([] ++
        [⟨chatPage.nextNodeId, .message .user (some (jsTrim (⟨"  hi  ", ""⟩ : ChatInput).value)) false⟩,
         ⟨chatPage.nextNodeId + 2,
          match ChatOutcome.throws with
          | .ok (.value reply) => .message .bot reply true
          | _ => .message .bot
              (some (orDefault (chatPage.translations "chatbot_error") chatbotErrorDefault)) false⟩])) :=
  ⟨⟨rfl, rfl, by decide, by simp⟩,
    sendMessage_always_answers .throws "2024-01-01T00:00:00.000Z" chatPage ⟨"  hi  ", ""⟩ []
      rfl rfl (by decide) (by simp)⟩

/-- C9: with the chat elements on the page, `sendMessage` issues a request
exactly when the input's value is non-empty after trimming: then it is one
`POST` to `/api/chatbot` whose `message` is the trimmed value and whose
`context.language` is `currentLanguage`; for a blank value no request is issued
and `#chatbotMessages` is left as it was. -/
theorem sendMessage_posts_iff_nonblank (outcome : ChatOutcome) (now : String) (s : Page)
    (input : ChatInput) (children : List ChatNode)
    (hinput : s.chatbotInput = some input) (hmsgs : s.chatbotMessages = some children) :
    (jsTrim input.value ≠ "" →
      (sendMessage outcome now s).page.requests = s.requests ++
        [⟨"/api/chatbot", "POST", some ⟨jsTrim input.value, s.currentLanguage, now⟩⟩]) ∧
    (jsTrim input.value = "" →
      (sendMessage outcome now s).page.requests = s.requests ∧
      (sendMessage outcome now s).page.chatbotMessages = s.chatbotMessages) := by
  unfold sendMessage
  rw [hinput, hmsgs]
  constructor
  · intro hnonblank
    simp only [hnonblank, if_false]
    rcases outcome with _ | _ | (_ | _ | reply) <;>
      simp [sendMessageTry, addTypingIndicator, addMessageToChat, removeNode, hmsgs]
  · intro hblank
    simp [hblank, hmsgs]

/-- C9 (witness): `  hi  ` posts `hi` in the current language `kn`; an input of
white space posts nothing and adds no message. -/
theorem sendMessage_posts_iff_nonblank_witness :
    (chatPage.chatbotInput = some ⟨"  hi  ", ""⟩ ∧ chatPage.chatbotMessages = some [] ∧
      jsTrim (⟨"  hi  ", ""⟩ : ChatInput).value ≠ "" ∧
      (sendMessage (.ok (.value (some "hello"))) "2024-01-01T00:00:00.000Z" chatPage).page.requests
        = chatPage.requests ++ [⟨"/api/chatbot", "POST",
            some ⟨jsTrim (⟨"  hi  ", ""⟩ : ChatInput).value, chatPage.currentLanguage,
              "2024-01-01T00:00:00.000Z"⟩⟩]) ∧
    (blankChatPage.chatbotInput = some ⟨" \t\n", ""⟩ ∧ blankChatPage.chatbotMessages = some [] ∧
      jsTrim (⟨" \t\n", ""⟩ : ChatInput).value = "" ∧
      (sendMessage (.ok (.value (some "hello"))) "2024-01-01T00:00:00.000Z" blankChatPage).page.requests
        = blankChatPage.requests ∧
      (sendMessage (.ok (.value (some "hello"))) "2024-01-01T00:00:00.000Z"
        blankChatPage).page.chatbotMessages = blankChatPage.chatbotMessages) :=
  ⟨⟨rfl, rfl, by decide,
      (sendMessage_posts_iff_nonblank (.ok (.value (some "hello"))) "2024-01-01T00:00:00.000Z"
        chatPage ⟨"  hi  ", ""⟩ [] rfl rfl).1 (by decide)⟩,
    ⟨rfl, rfl, by decide,
      (sendMessage_posts_iff_nonblank (.ok (.value (some "hello"))) "2024-01-01T00:00:00.000Z"
        blankChatPage ⟨" \t\n", ""⟩ [] rfl rfl).2 (by decide)⟩⟩

/-! ## Theorems: form validation -/

/-- What `validateField` returns for a field named `age` whose type is neither
`email` nor `password` and whose trimmed value is not empty: the field is valid
when `parseInt` gives `NaN`, or gives a number from 18 to 65. -/
theorem validateField_age (tr : Translations) (field : Field)
    (hname : field.name = "age") (hemail : field.type ≠ "email")
    (hpassword : field.type ≠ "password") (hvalue : jsTrim field.value ≠ "") :
    (validateField tr field).1 = true ↔
      (parseInt (jsTrim field.value) = none ∨
        ∃ age, parseInt (jsTrim field.value) = some age ∧ 18 ≤ age ∧ age ≤ 65) := by
  have hphone : field.name ≠ "contact_number" := by rw [hname]; decide
  unfold validateField checkField
  cases hp : parseInt (jsTrim field.value) with
  | none => simp [hname, hemail, hpassword, hvalue, hp]
  | some age =>
    by_cases hr : age < 18 ∨ 65 < age
    · have : ¬ (18 ≤ age ∧ age ≤ 65) := by omega
      simp [hname, hemail, hpassword, hvalue, hp, hr, this]
    · have h2 : 18 ≤ age ∧ age ≤ 65 := by omega
      simp [hname, hemail, hpassword, hvalue, hp, hr, h2]

/-- C10 (evaluation at the failing input): for every translations table,
`validateField` reports a text field named `age` holding `abc` valid, marks it
`is-valid` and leaves the error text empty, although `abc` is not a number
between 18 and 65. -/
theorem validateField_age_accepts_abc (tr : Translations) :
    parseInt (jsTrim ageFieldAbc.value) = none ∧
    validateField tr ageFieldAbc
      = (true, { ageFieldAbc with classList := ["is-valid"], feedback := some "" }) := by
  have hp : parseInt (jsTrim ageFieldAbc.value) = none := by decide
  refine ⟨hp, ?_⟩
  have hv : jsTrim ageFieldAbc.value ≠ "" := by decide
  have hc : checkField tr ageFieldAbc = (true, "") := by
    unfold checkField
    simp [hp, hv]
    simp [ageFieldAbc]
  unfold validateField
  rw [hc]
  simp [classToggle, ageFieldAbc]

/-- C11 (counterexample): a password field holding `abcde` and a trailing space
has an entered value of 6 characters, yet `validateField` reports it invalid. -/
theorem validateField_padded_password :
    jsTrim paddedPasswordField.value ≠ "" ∧
    6 ≤ jsLength paddedPasswordField.value ∧
    (validateField (fun _ => none) paddedPasswordField).1 = false := by
  decide

/-- C11 (amended): for a password field whose name is neither `contact_number`
nor `age` and whose trimmed value is not empty, `validateField` reports the
field valid exactly when the trimmed value `field.value.trim()` has a `length`
(UTF-16 code units) of at least 6. -/
theorem validateField_password (tr : Translations) (field : Field)
    (htype : field.type = "password") (hphone : field.name ≠ "contact_number")
    (hage : field.name ≠ "age") (hvalue : jsTrim field.value ≠ "") :
    (validateField tr field).1 = true ↔ 6 ≤ jsLength (jsTrim field.value) := by
  have hemail : field.type ≠ "email" := by rw [htype]; decide
  unfold validateField checkField
  by_cases hlen : jsLength (jsTrim field.value) < 6
  · have : ¬ 6 ≤ jsLength (jsTrim field.value) := by omega
    simp [htype, hphone, hage, hvalue, hlen, this]
  · have h6 : 6 ≤ jsLength (jsTrim field.value) := by omega
    simp [htype, hphone, hage, hvalue, hlen, h6]

/-- C11 (witness): the amended statement at a password field holding `abcdef`. -/
theorem validateField_password_witness :
    (sixLetterPasswordField.type = "password" ∧ sixLetterPasswordField.name ≠ "contact_number" ∧
      sixLetterPasswordField.name ≠ "age" ∧ jsTrim sixLetterPasswordField.value ≠ "") ∧
    ((validateField (fun _ => none) sixLetterPasswordField).1 = true ↔
      6 ≤ jsLength (jsTrim sixLetterPasswordField.value)) :=
  ⟨by decide,
    validateField_password (fun _ => none) sixLetterPasswordField rfl (by decide) (by decide)
      (by decide)⟩

/-! ## Theorems: click or drag -/

/-- While a drag is going on, move events keep it going, keep its start, leave
the panel and the toggle button alone, and set `hasMoved` once a move is more
than 5 pixels from the start. -/
theorem drag_moves (moves : List Point) (p : Page) (hdragging : p.drag.isDragging = true) :
    (moves.foldl (fun page client => drag client page) p).drag.isDragging = true ∧
    (moves.foldl (fun page client => drag client page) p).drag.hasMoved
      = (p.drag.hasMoved || moves.any (movedFar p.drag.startPos)) ∧
    (moves.foldl (fun page client => drag client page) p).chatbotPanel = p.chatbotPanel ∧
    (moves.foldl (fun page client => drag client page) p).hasToggleBtn = p.hasToggleBtn := by
  induction moves generalizing p with
  | nil => simp [hdragging]
  | cons m ms ih =>
    have hstep : (drag m p).drag.isDragging = true ∧
        (drag m p).drag.startPos = p.drag.startPos ∧
        (drag m p).drag.hasMoved = (p.drag.hasMoved || movedFar p.drag.startPos m) ∧
        (drag m p).chatbotPanel = p.chatbotPanel ∧
        (drag m p).hasToggleBtn = p.hasToggleBtn := by
      by_cases hfar : |m.x - p.drag.startPos.x| + |m.y - p.drag.startPos.y| > 5
      · simp [drag, hdragging, movedFar, hfar]
      · simp [drag, hdragging, movedFar, hfar]
    obtain ⟨h1, h2, h3, h4, h5⟩ := hstep
    obtain ⟨i1, i2, i3, i4⟩ := ih (drag m p) h1
    refine ⟨i1, ?_, ?_, ?_⟩
    · rw [List.foldl_cons, i2, h2, h3, List.any_cons, Bool.or_assoc]
    · rw [List.foldl_cons, i3, h4]
    · rw [List.foldl_cons, i4, h5]

/-- C13: on a page with the chat panel and its toggle button, a whole drag
(start, any move events, end) leaves the panel toggled exactly when no move
event was at a Manhattan distance of more than 5 pixels from the start, and
leaves it as it was exactly when some move event was: a later return of the
pointer to the start does not make the drag a click. -/
theorem dragRun_toggles_iff (target : String) (start rect : Point) (moves : List Point)
    (endRect : Point) (s : Page) (shown : Bool)
    (hpanel : s.chatbotPanel = some shown) (hbtn : s.hasToggleBtn = true) :
    ((dragRun target start rect moves endRect s).chatbotPanel = some (!shown) ↔
      ∀ m ∈ moves, |m.x - start.x| + |m.y - start.y| ≤ 5) ∧
    ((dragRun target start rect moves endRect s).chatbotPanel = some shown ↔
      ∃ m ∈ moves, |m.x - start.x| + |m.y - start.y| > 5) := by
  obtain ⟨h1, h2, h3, h4⟩ := drag_moves moves (startDrag target start rect s) rfl
  have hp : (moves.foldl (fun page client => drag client page)
      (startDrag target start rect s)).chatbotPanel = some shown := by rw [h3]; exact hpanel
  have hb : (moves.foldl (fun page client => drag client page)
      (startDrag target start rect s)).hasToggleBtn = true := by rw [h4]; exact hbtn
  have hm : (moves.foldl (fun page client => drag client page)
      (startDrag target start rect s)).drag.hasMoved = moves.any (movedFar start) := by
    rw [h2]; simp [startDrag]
  have hfinal : (dragRun target start rect moves endRect s).chatbotPanel
      = some (if moves.any (movedFar start) then shown else !shown) := by
    unfold dragRun endDrag
    cases hany : moves.any (movedFar start) <;>
      simp [h1, hm, hany, toggleChatbot, hp, hb]
  rw [hfinal]
  cases hany : moves.any (movedFar start)
  · have hnone : ∀ m ∈ moves, |m.x - start.x| + |m.y - start.y| ≤ 5 := by
      intro m hmem
      have := (List.any_eq_false.mp hany) m hmem
      simpa [movedFar] using this
    constructor
    · simp only [Bool.false_eq_true, if_false, true_iff]
      exact hnone
    · constructor
      · intro h
        cases shown <;> simp at h
      · rintro ⟨m, hmem, hfar⟩
        have := hnone m hmem
        omega
  · obtain ⟨m, hmem, hfar⟩ := List.any_eq_true.mp hany
    have hfar2 : |m.x - start.x| + |m.y - start.y| > 5 := by simpa [movedFar] using hfar
    constructor
    · constructor
      · intro h
        cases shown <;> simp at h
      · intro hall
        have := hall m hmem
        omega
    · simp only [if_true, true_iff]
      exact ⟨m, hmem, hfar2⟩

/-- C13 (witness): on a page with a closed panel, a drag from (100, 100) that
goes to (120, 100) and back to (100, 100) leaves the panel closed. -/
theorem dragRun_toggles_iff_witness :
    (closedPanelPage.chatbotPanel = some false ∧ closedPanelPage.hasToggleBtn = true) ∧
    (((dragRun "button" ⟨100, 100⟩ ⟨90, 90⟩ [⟨120, 100⟩, ⟨100, 100⟩] ⟨90, 90⟩
          closedPanelPage).chatbotPanel = some (!false) ↔
        ∀ m ∈ ([⟨120, 100⟩, ⟨100, 100⟩] : List Point),
          |m.x - (⟨100, 100⟩ : Point).x| + |m.y - (⟨100, 100⟩ : Point).y| ≤ 5) ∧
      ((dragRun "button" ⟨100, 100⟩ ⟨90, 90⟩ [⟨120, 100⟩, ⟨100, 100⟩] ⟨90, 90⟩
          closedPanelPage).chatbotPanel = some false ↔
        ∃ m ∈ ([⟨120, 100⟩, ⟨100, 100⟩] : List Point),
          |m.x - (⟨100, 100⟩ : Point).x| + |m.y - (⟨100, 100⟩ : Point).y| > 5)) :=
  ⟨⟨rfl, rfl⟩,
    dragRun_toggles_iff "button" ⟨100, 100⟩ ⟨90, 90⟩ [⟨120, 100⟩, ⟨100, 100⟩] ⟨90, 90⟩
      closedPanelPage false rfl rfl⟩

/-! ## Theorems: field marking -/

/-- Membership in a class list after `classList.toggle(token, force)`. -/
theorem mem_classToggle (classes : List String) (token : String) (force : Bool) (c : String) :
    c ∈ classToggle classes token force ↔ (if c = token then force = true else c ∈ classes) := by
  unfold classToggle
  by_cases hc : c = token
  · subst hc
    cases force
    · simp
    · by_cases hm : c ∈ classes <;> simp [hm]
  · cases force
    · simp [hc]
    · by_cases hm : token ∈ classes
      · simp [hc, hm]
      · simp [hc, hm]

/-- A fallback that is not empty makes `translations.key || fallback` not empty. -/
theorem orDefault_ne_empty (v : Option String) (fallback : String) (h : fallback ≠ "") :
    orDefault v fallback ≠ "" := by
  unfold orDefault
  cases v with
  | none => exact h
  | some t =>
    by_cases ht : t = ""
    · simp [ht, h]
    · simp [ht]

/-- The checks of `validateField` end with an empty message exactly when they
end with `isValid` true. -/
theorem checkField_message (tr : Translations) (field : Field) :
    (checkField tr field).1 = true ↔ (checkField tr field).2 = "" := by
  have keep : ∀ (c : Bool) (m : String) (r : Bool × String), m ≠ "" →
      (r.1 = true ↔ r.2 = "") →
      ((if c = true then (false, m) else r).1 = true ↔
        (if c = true then (false, m) else r).2 = "") := by
    intro c m r hm hr
    cases c
    · simpa using hr
    · simp [hm]
  have keep2 : ∀ (c : Bool) (x r : Bool × String),
      (x.1 = true ↔ x.2 = "") → (r.1 = true ↔ r.2 = "") →
      ((if c = true then x else r).1 = true ↔ (if c = true then x else r).2 = "") := by
    intro c x r hx hr
    cases c
    · simpa using hr
    · simpa using hx
  unfold checkField
  simp only []
  have h0 : (((true, "") : Bool × String).1 = true ↔ ((true, "") : Bool × String).2 = "") := by
    simp
  have h1 := keep (field.required && decide (jsTrim field.value = ""))
    (orDefault (tr "required_field") "This field is required") (true, "")
    (orDefault_ne_empty _ _ (by decide)) h0
  have h2 := keep2 (decide (field.type = "email") && decide (jsTrim field.value ≠ "")) _ _
    (keep (!emailRegex.test (jsTrim field.value))
      (orDefault (tr "invalid_email") "Please enter a valid email address") _
      (orDefault_ne_empty _ _ (by decide)) h1) h1
  have h3 := keep2 (decide (field.name = "contact_number") && decide (jsTrim field.value ≠ "")) _ _
    (keep (!phoneRegex.test (removeNonDigits (jsTrim field.value)))
      (orDefault (tr "invalid_phone") "Please enter a valid 10-digit phone number") _
      (orDefault_ne_empty _ _ (by decide)) h2) h2
  have h4 := keep2 (decide (field.type = "password") && decide (jsTrim field.value ≠ "")) _ _
    (keep (decide (jsLength (jsTrim field.value) < 6))
      (orDefault (tr "password_too_short") "Password must be at least 6 characters long") _
      (orDefault_ne_empty _ _ (by decide)) h3) h3
  by_cases hage : (decide (field.name = "age") && decide (jsTrim field.value ≠ "")) = true
  · rw [if_pos hage]
    cases hp : parseInt (jsTrim field.value) with
    | none => simpa using h4
    | some age =>
      simp only []
      have h5 := keep (decide (age < 18) || decide (age > 65))
        (orDefault (tr "invalid_age") "Age must be between 18 and 65") _
        (orDefault_ne_empty _ _ (by decide)) h4
      simpa using h5
  · rw [if_neg hage]
    simpa using h4

/-- C17: after a call of `validateField`, for every string-valued translations
table, the field carries `is-valid` exactly when the call returned true and
`is-invalid` exactly when it returned false, so exactly one of the two; and the
text of its invalid-feedback element is empty exactly when the call returned
true. -/
theorem validateField_marking (tr : Translations) (field : Field) :
    ("is-valid" ∈ (validateField tr field).2.classList ↔ (validateField tr field).1 = true) ∧
    ("is-invalid" ∈ (validateField tr field).2.classList ↔ (validateField tr field).1 = false) ∧
    (∃ text, (validateField tr field).2.feedback = some text ∧
      (text = "" ↔ (validateField tr field).1 = true)) := by
  have hmsg := checkField_message tr field
  unfold validateField
  cases hc : checkField tr field with
  | mk isValid errorMessage =>
    rw [hc] at hmsg
    simp only [] at hmsg ⊢
    refine ⟨?_, ?_, errorMessage, rfl, hmsg.symm⟩
    · rw [mem_classToggle, mem_classToggle]
      simp
    · rw [mem_classToggle]
      cases isValid <;> simp

/-! ## Theorems: regular expressions -/

/-- A match of `a b` splits into a match of `a` and a match of `b`. -/
theorem Regex.Matches.seq_inv {a b : Regex} {l : List Char} (h : Regex.Matches (.seq a b) l) :
    ∃ l1 l2, l = l1 ++ l2 ∧ Regex.Matches a l1 ∧ Regex.Matches b l2 := by
  cases h with
  | seq h1 h2 => exact ⟨_, _, rfl, h1, h2⟩

/-- A match of `a|b` is a match of `a` or of `b`. -/
theorem Regex.Matches.alt_inv {a b : Regex} {l : List Char} (h : Regex.Matches (.alt a b) l) :
    Regex.Matches a l ∨ Regex.Matches b l := by
  cases h with
  | altLeft h1 => exact Or.inl h1
  | altRight h1 => exact Or.inr h1

/-- A match of a class is one character of the class. -/
theorem Regex.Matches.cls_inv {p : Char → Bool} {l : List Char} (h : Regex.Matches (.cls p) l) :
    ∃ c, l = [c] ∧ p c = true := by
  cases h with
  | cls hp => exact ⟨_, rfl, hp⟩

/-- The empty expression matches only the empty string. -/
theorem Regex.Matches.empty_inv {l : List Char} (h : Regex.Matches .empty l) : l = [] := by
  cases h
  rfl

/-- Nothing matches `nothing`. -/
theorem Regex.Matches.nothing_inv {l : List Char} (h : Regex.Matches .nothing l) : False := by
  cases h

/-- A non-empty match of `a*` starts with a non-empty match of `a`. -/
theorem Regex.Matches.star_cons_inv {r : Regex} {l0 : List Char} (h : Regex.Matches r l0) :
    ∀ (a : Regex) (c : Char) (l : List Char), r = .star a → l0 = c :: l →
      ∃ l1 l2, l = l1 ++ l2 ∧ Regex.Matches a (c :: l1) ∧ Regex.Matches (.star a) l2 := by
  induction h with
  | empty => intro a c l hr; cases hr
  | cls _ => intro a c l hr; cases hr
  | seq _ _ _ _ => intro a c l hr; cases hr
  | altLeft _ _ => intro a c l hr; cases hr
  | altRight _ _ => intro a c l hr; cases hr
  | starNil => intro a c l _ hl; cases hl
  | @starCons a0 l1 l2 h1 h2 _ ih2 =>
    intro a c l hr hl
    cases hr
    cases l1 with
    | nil => exact ih2 a0 c l rfl (by simpa using hl)
    | cons d l1 =>
      simp only [List.cons_append, List.cons.injEq] at hl
      obtain ⟨hd, hl⟩ := hl
      subst hd
      exact ⟨l1, l2, hl.symm, h1, h2⟩

/-- An expression is nullable exactly when it matches the empty string. -/
theorem Regex.nullable_iff (r : Regex) : r.nullable = true ↔ Regex.Matches r [] := by
  induction r with
  | nothing => simp only [Regex.nullable, Bool.false_eq_true, false_iff]; exact fun h => h.nothing_inv
  | empty => simp only [Regex.nullable, true_iff]; exact .empty
  | cls p =>
    simp only [Regex.nullable, Bool.false_eq_true, false_iff]
    intro h
    obtain ⟨c, hc, _⟩ := h.cls_inv
    cases hc
  | seq a b iha ihb =>
    simp only [Regex.nullable, Bool.and_eq_true, iha, ihb]
    constructor
    · rintro ⟨h1, h2⟩
      exact (Regex.Matches.seq h1 h2 : Regex.Matches (.seq a b) ([] ++ []))
    · intro h
      obtain ⟨l1, l2, hl, h1, h2⟩ := h.seq_inv
      have hl2 := hl.symm
      rw [List.append_eq_nil] at hl2
      obtain ⟨e1, e2⟩ := hl2
      subst e1 e2
      exact ⟨h1, h2⟩
  | alt a b iha ihb =>
    simp only [Regex.nullable, Bool.or_eq_true, iha, ihb]
    constructor
    · rintro (h | h)
      · exact .altLeft h
      · exact .altRight h
    · exact fun h => h.alt_inv
  | star a _ => simp only [Regex.nullable, true_iff]; exact .starNil

/-- The derivative by `c` matches `l` exactly when the expression matches
`c :: l`. -/
theorem Regex.deriv_iff (r : Regex) (c : Char) (l : List Char) :
    Regex.Matches (r.deriv c) l ↔ Regex.Matches r (c :: l) := by
  induction r generalizing l with
  | nothing =>
    simp only [Regex.deriv]
    exact ⟨fun h => h.nothing_inv.elim, fun h => h.nothing_inv.elim⟩
  | empty =>
    simp only [Regex.deriv]
    constructor
    · exact fun h => h.nothing_inv.elim
    · intro h
      cases h.empty_inv
  | cls p =>
    simp only [Regex.deriv]
    constructor
    · intro h
      by_cases hp : p c = true
      · rw [if_pos hp] at h
        rw [h.empty_inv]
        exact .cls hp
      · rw [if_neg hp] at h
        exact h.nothing_inv.elim
    · intro h
      obtain ⟨d, hd, hp⟩ := h.cls_inv
      simp only [List.cons.injEq] at hd
      obtain ⟨e1, e2⟩ := hd
      subst e1 e2
      rw [if_pos hp]
      exact .empty
  | seq a b iha ihb =>
    have hsplit : Regex.Matches (.seq a b) (c :: l) ↔
        (Regex.Matches a [] ∧ Regex.Matches b (c :: l)) ∨
        ∃ l1 l2, l = l1 ++ l2 ∧ Regex.Matches a (c :: l1) ∧ Regex.Matches b l2 := by
      constructor
      · intro h
        obtain ⟨l1, l2, hl, h1, h2⟩ := h.seq_inv
        cases l1 with
        | nil =>
          simp only [List.nil_append] at hl
          subst hl
          exact Or.inl ⟨h1, h2⟩
        | cons d l1 =>
          simp only [List.cons_append, List.cons.injEq] at hl
          obtain ⟨e1, e2⟩ := hl
          subst e1
          exact Or.inr ⟨l1, l2, e2, h1, h2⟩
      · rintro (⟨h1, h2⟩ | ⟨l1, l2, hl, h1, h2⟩)
        · exact (Regex.Matches.seq h1 h2 : Regex.Matches (.seq a b) ([] ++ (c :: l)))
        · rw [hl]
          exact (Regex.Matches.seq h1 h2 : Regex.Matches (.seq a b) ((c :: l1) ++ l2))
    have hleft : Regex.Matches (.seq (a.deriv c) b) l ↔
        ∃ l1 l2, l = l1 ++ l2 ∧ Regex.Matches a (c :: l1) ∧ Regex.Matches b l2 := by
      constructor
      · intro h
        obtain ⟨l1, l2, hl, h1, h2⟩ := h.seq_inv
        exact ⟨l1, l2, hl, (iha l1).mp h1, h2⟩
      · rintro ⟨l1, l2, hl, h1, h2⟩
        rw [hl]
        exact .seq ((iha l1).mpr h1) h2
    rw [hsplit]
    simp only [Regex.deriv]
    by_cases hn : a.nullable = true
    · rw [if_pos hn]
      constructor
      · intro h
        rcases h.alt_inv with h | h
        · exact Or.inr (hleft.mp h)
        · exact Or.inl ⟨(Regex.nullable_iff a).mp hn, (ihb l).mp h⟩
      · rintro (⟨_, h2⟩ | h)
        · exact .altRight ((ihb l).mpr h2)
        · exact .altLeft (hleft.mpr h)
    · rw [if_neg hn]
      constructor
      · intro h
        exact Or.inr (hleft.mp h)
      · rintro (⟨h1, _⟩ | h)
        · exact (hn ((Regex.nullable_iff a).mpr h1)).elim
        · exact hleft.mpr h
  | alt a b iha ihb =>
    simp only [Regex.deriv]
    constructor
    · intro h
      rcases h.alt_inv with h | h
      · exact .altLeft ((iha l).mp h)
      · exact .altRight ((ihb l).mp h)
    · intro h
      rcases h.alt_inv with h | h
      · exact .altLeft ((iha l).mpr h)
      · exact .altRight ((ihb l).mpr h)
  | star a iha =>
    simp only [Regex.deriv]
    constructor
    · intro h
      obtain ⟨l1, l2, hl, h1, h2⟩ := h.seq_inv
      rw [hl]
      exact (Regex.Matches.starCons ((iha l1).mp h1) h2 : Regex.Matches (.star a) ((c :: l1) ++ l2))
    · intro h
      obtain ⟨l1, l2, hl, h1, h2⟩ := h.star_cons_inv a c l rfl rfl
      rw [hl]
      exact .seq ((iha l1).mpr h1) h2

/-- Folding derivatives over a string and asking for nullability decides the
match. -/
theorem Regex.foldl_deriv_iff (l : List Char) (r : Regex) :
    (l.foldl (fun q c => q.deriv c) r).nullable = true ↔ Regex.Matches r l := by
  induction l generalizing r with
  | nil => exact Regex.nullable_iff r
  | cons c l ih => rw [List.foldl_cons, ih, Regex.deriv_iff]

/-- The method `test` of an anchored expression succeeds exactly on the strings
the expression matches. -/
theorem Regex.test_iff (r : Regex) (s : String) :
    r.test s = true ↔ Regex.Matches r s.toList := by
  unfold Regex.test
  exact Regex.foldl_deriv_iff s.toList r

/-- Every character of a match of `[p]*` is in the class. -/
theorem Regex.Matches.star_cls_all {r : Regex} {l0 : List Char} (h : Regex.Matches r l0) :
    ∀ (p : Char → Bool), r = .star (.cls p) → ∀ c ∈ l0, p c = true := by
  induction h with
  | empty => intro p hr; cases hr
  | cls _ => intro p hr; cases hr
  | seq _ _ _ _ => intro p hr; cases hr
  | altLeft _ _ => intro p hr; cases hr
  | altRight _ _ => intro p hr; cases hr
  | starNil => intro p _ c hc; cases hc
  | @starCons a0 l1 l2 h1 _ _ ih2 =>
    intro p hr c hc
    cases hr
    obtain ⟨d, hd, hp⟩ := h1.cls_inv
    subst hd
    rcases List.mem_append.mp hc with hm | hm
    · rw [List.mem_singleton] at hm
      rw [hm]
      exact hp
    · exact ih2 p rfl c hm

/-- The expression `[p]*` matches the strings made of characters of the class. -/
theorem Regex.matches_star_cls (p : Char → Bool) (l : List Char) :
    Regex.Matches (.star (.cls p)) l ↔ ∀ c ∈ l, p c = true := by
  constructor
  · exact fun h => h.star_cls_all p rfl
  · induction l with
    | nil => exact fun _ => .starNil
    | cons c l ih =>
      intro h
      exact (Regex.Matches.starCons (.cls (h c (List.mem_cons_self c l)))
        (ih (fun d hd => h d (List.mem_cons_of_mem c hd))) :
          Regex.Matches (.star (.cls p)) ([c] ++ l))

/-- The expression `[p]+` matches the non-empty strings made of characters of
the class. -/
theorem Regex.matches_plus_cls (p : Char → Bool) (l : List Char) :
    Regex.Matches (Regex.plus (.cls p)) l ↔ l ≠ [] ∧ ∀ c ∈ l, p c = true := by
  unfold Regex.plus
  constructor
  · intro h
    obtain ⟨l1, l2, hl, h1, h2⟩ := h.seq_inv
    obtain ⟨d, hd, hp⟩ := h1.cls_inv
    subst hd hl
    refine ⟨by simp, ?_⟩
    intro c hc
    rcases List.mem_append.mp hc with hm | hm
    · rw [List.mem_singleton] at hm
      rw [hm]
      exact hp
    · exact (Regex.matches_star_cls p l2).mp h2 c hm
  · rintro ⟨hne, hall⟩
    cases l with
    | nil => exact (hne rfl).elim
    | cons c l =>
      exact (Regex.Matches.seq (.cls (hall c (List.mem_cons_self c l)))
        ((Regex.matches_star_cls p l).mpr (fun d hd => hall d (List.mem_cons_of_mem c hd))) :
          Regex.Matches (.seq (.cls p) (.star (.cls p))) ([c] ++ l))

/-- The expression `[p]{n}` matches the strings of `n` characters of the class. -/
theorem Regex.matches_times_cls (p : Char → Bool) (n : Nat) (l : List Char) :
    Regex.Matches (Regex.times (.cls p) n) l ↔ l.length = n ∧ ∀ c ∈ l, p c = true := by
  induction n generalizing l with
  | zero =>
    simp only [Regex.times]
    constructor
    · intro h
      rw [h.empty_inv]
      simp
    · rintro ⟨hlen, _⟩
      rw [List.length_eq_zero.mp hlen]
      exact .empty
  | succ n ih =>
    simp only [Regex.times]
    constructor
    · intro h
      obtain ⟨l1, l2, hl, h1, h2⟩ := h.seq_inv
      obtain ⟨d, hd, hp⟩ := h1.cls_inv
      obtain ⟨hlen, hall⟩ := (ih l2).mp h2
      subst hd hl
      refine ⟨by simp [hlen], ?_⟩
      intro c hc
      rcases List.mem_append.mp hc with hm | hm
      · rw [List.mem_singleton] at hm
        rw [hm]
        exact hp
      · exact hall c hm
    · rintro ⟨hlen, hall⟩
      cases l with
      | nil => simp at hlen
      | cons c l =>
        exact (Regex.Matches.seq (.cls (hall c (List.mem_cons_self c l)))
          ((ih l).mpr ⟨by simpa using hlen, fun d hd => hall d (List.mem_cons_of_mem c hd)⟩) :
            Regex.Matches (.seq (.cls p) (Regex.times (.cls p) n)) ([c] ++ l))

/-- The strings `emailRegex` matches: a name, `@`, a host, `.` and a tail, each
part non-empty and free of white space and `@`. -/
theorem emailRegex_matches (l : List Char) :
    Regex.Matches emailRegex l ↔
      ∃ name host tail : List Char, l = name ++ '@' :: (host ++ '.' :: tail) ∧
        (name ≠ [] ∧ ∀ c ∈ name, notSpaceOrAt c = true) ∧
        (host ≠ [] ∧ ∀ c ∈ host, notSpaceOrAt c = true) ∧
        (tail ≠ [] ∧ ∀ c ∈ tail, notSpaceOrAt c = true) := by
  unfold emailRegex
  constructor
  · intro h
    obtain ⟨name, r1, e1, hname, h1⟩ := h.seq_inv
    obtain ⟨at1, r2, e2, hat, h2⟩ := h1.seq_inv
    obtain ⟨host, r3, e3, hhost, h3⟩ := h2.seq_inv
    obtain ⟨dot1, tail, e4, hdot, htail⟩ := h3.seq_inv
    obtain ⟨a, ea, ha⟩ := hat.cls_inv
    obtain ⟨d, ed, hd⟩ := hdot.cls_inv
    have ha2 : a = '@' := by simpa using ha
    have hd2 : d = '.' := by simpa using hd
    subst ha2 hd2 ea ed e4 e3 e2 e1
    exact ⟨name, host, tail, by simp, (Regex.matches_plus_cls _ _).mp hname,
      (Regex.matches_plus_cls _ _).mp hhost, (Regex.matches_plus_cls _ _).mp htail⟩
  · rintro ⟨name, host, tail, hl, hname, hhost, htail⟩
    rw [hl]
    have hat : Regex.Matches (.cls (fun c => c == '@')) ['@'] := .cls (by simp)
    have hdot : Regex.Matches (.cls (fun c => c == '.')) ['.'] := .cls (by simp)
    have h3 := Regex.Matches.seq hdot ((Regex.matches_plus_cls notSpaceOrAt tail).mpr htail)
    have h2 := Regex.Matches.seq ((Regex.matches_plus_cls notSpaceOrAt host).mpr hhost) h3
    have h1 := Regex.Matches.seq hat h2
    have h0 := Regex.Matches.seq ((Regex.matches_plus_cls notSpaceOrAt name).mpr hname) h1
    simpa using h0

/-- The class `[^\s@]` spelled out. -/
theorem notSpaceOrAt_iff (c : Char) :
    notSpaceOrAt c = true ↔ isJsWhitespace c = false ∧ c ≠ '@' := by
  simp [notSpaceOrAt]

/-- The strings `emailRegex` matches are the strings of the described shape. -/
theorem emailRegex_matches_iff_shape (l : List Char) :
    Regex.Matches emailRegex l ↔ EmailShape l := by
  rw [emailRegex_matches]
  unfold EmailShape
  constructor
  · rintro ⟨name, host, tail, hl, ⟨hn, hna⟩, ⟨hh, hha⟩, ⟨ht, hta⟩⟩
    have cnt : ∀ part : List Char, (∀ c ∈ part, notSpaceOrAt c = true) → part.count '@' = 0 := by
      intro part hpart
      rw [List.count_eq_zero]
      intro hmem
      exact ((notSpaceOrAt_iff _).mp (hpart _ hmem)).2 rfl
    subst hl
    refine ⟨?_, ?_, name, host ++ '.' :: tail, rfl, hn, host, tail, rfl, hh, ht⟩
    · intro c hc
      simp only [List.mem_append, List.mem_cons] at hc
      rcases hc with hc | hc | hc | hc | hc
      · exact ((notSpaceOrAt_iff _).mp (hna c hc)).1
      · rw [hc]; decide
      · exact ((notSpaceOrAt_iff _).mp (hha c hc)).1
      · rw [hc]; decide
      · exact ((notSpaceOrAt_iff _).mp (hta c hc)).1
    · simp [List.count_append, List.count_cons, cnt name hna, cnt host hha, cnt tail hta]
  · rintro ⟨hws, hcount, name, rest, hl, hn, host, tail, hrest, hh, ht⟩
    subst hrest hl
    have hc : name.count '@' = 0 ∧ host.count '@' = 0 ∧ tail.count '@' = 0 := by
      simp [List.count_append, List.count_cons] at hcount
      omega
    have part : ∀ part : List Char, part.count '@' = 0 →
        (∀ c ∈ part, c ∈ name ++ '@' :: (host ++ '.' :: tail)) →
        ∀ c ∈ part, notSpaceOrAt c = true := by
      intro part hzero hsub c hmem
      rw [notSpaceOrAt_iff]
      refine ⟨hws c (hsub c hmem), ?_⟩
      intro hat
      rw [List.count_eq_zero] at hzero
      exact hzero (hat ▸ hmem)
    refine ⟨name, host, tail, rfl, ⟨hn, part name hc.1 ?_⟩, ⟨hh, part host hc.2.1 ?_⟩,
      ⟨ht, part tail hc.2.2 ?_⟩⟩
    · intro c hmem; simp [hmem]
    · intro c hmem; simp [hmem]
    · intro c hmem; simp [hmem]

/-! ## Theorems: email and phone fields -/

/-- A white space character is not a digit. -/
theorem isDigit09_of_whitespace (c : Char) (h : isJsWhitespace c = true) :
    isDigit09 c = false := by
  unfold isDigit09
  unfold isJsWhitespace at h
  have h0 : ('0' ≤ c) ↔ 48 ≤ c.toNat := by
    rw [Char.le_def]
    rfl
  have h9 : (c ≤ '9') ↔ c.toNat ≤ 57 := by
    rw [Char.le_def]
    rfl
  simp only [Bool.and_eq_false_iff, decide_eq_false_iff_not, h0, h9]
  simp only [Bool.or_eq_true, decide_eq_true_eq, Bool.and_eq_true] at h
  omega

/-- Dropping leading white space removes no digit. -/
theorem filter_digits_dropWhile (cs : List Char) :
    (cs.dropWhile isJsWhitespace).filter isDigit09 = cs.filter isDigit09 := by
  induction cs with
  | nil => rfl
  | cons c cs ih =>
    by_cases hw : isJsWhitespace c = true
    · rw [List.dropWhile_cons_of_pos hw, ih, List.filter_cons_of_neg]
      rw [isDigit09_of_whitespace c hw]
      decide
    · rw [List.dropWhile_cons_of_neg hw]

/-- Trimming removes no digit. -/
theorem filter_digits_trim (cs : List Char) :
    (jsTrimChars cs).filter isDigit09 = cs.filter isDigit09 := by
  unfold jsTrimChars
  rw [List.filter_reverse, filter_digits_dropWhile, List.filter_reverse, List.reverse_reverse,
    filter_digits_dropWhile]

/-- The class `[0-9]` holds exactly the ten decimal digit characters. -/
theorem isDigit09_iff_mem (c : Char) :
    isDigit09 c = true ↔ c ∈ ['0', '1', '2', '3', '4', '5', '6', '7', '8', '9'] := by
  have h0 : ('0' ≤ c) ↔ 48 ≤ c.toNat := by
    rw [Char.le_def]
    rfl
  have h9 : (c ≤ '9') ↔ c.toNat ≤ 57 := by
    rw [Char.le_def]
    rfl
  unfold isDigit09
  simp only [Bool.and_eq_true, decide_eq_true_eq, h0, h9]
  constructor
  · rintro ⟨hlo, hhi⟩
    have hc : c = Char.ofNat c.toNat := (Char.ofNat_toNat c).symm
    have hcases : c.toNat = 48 ∨ c.toNat = 49 ∨ c.toNat = 50 ∨ c.toNat = 51 ∨ c.toNat = 52 ∨
        c.toNat = 53 ∨ c.toNat = 54 ∨ c.toNat = 55 ∨ c.toNat = 56 ∨ c.toNat = 57 := by omega
    rcases hcases with h | h | h | h | h | h | h | h | h | h <;>
      (rw [hc, h]; decide)
  · intro hmem
    simp only [List.mem_cons, List.mem_singleton, List.not_mem_nil, or_false] at hmem
    rcases hmem with h | h | h | h | h | h | h | h | h | h <;>
      (rw [h]; decide)

/-- What `value.replace(/\D/g, '')` leaves of the trimmed value: the decimal
digit characters of the field's value, in order. -/
theorem removeNonDigits_trim (value : String) :
    (removeNonDigits (jsTrim value)).toList
      = value.toList.filter
          (fun c => decide (c ∈ ['0', '1', '2', '3', '4', '5', '6', '7', '8', '9'])) := by
  have htrim : (removeNonDigits (jsTrim value)).toList = value.toList.filter isDigit09 :=
    filter_digits_trim value.toList
  rw [htrim]
  apply List.filter_congr
  intro c _
  by_cases h : isDigit09 c = true
  · rw [h]
    exact (decide_eq_true ((isDigit09_iff_mem c).mp h)).symm
  · have hn : c ∉ ['0', '1', '2', '3', '4', '5', '6', '7', '8', '9'] :=
      fun hm => h ((isDigit09_iff_mem c).mpr hm)
    rw [Bool.not_eq_true] at h
    rw [h]
    exact (decide_eq_false hn).symm

/-- C12: for a field named `contact_number` whose type is neither `email` nor
`password` and whose trimmed value is not empty, `validateField` reports the
field valid exactly when the characters of the value that are decimal digits
(what is left once every other character is removed) number exactly ten. -/
theorem validateField_phone (tr : Translations) (field : Field)
    (hname : field.name = "contact_number") (hemail : field.type ≠ "email")
    (hpassword : field.type ≠ "password") (hvalue : jsTrim field.value ≠ "") :
    (validateField tr field).1 = true ↔
      (field.value.toList.filter
        (fun c => decide (c ∈ ['0', '1', '2', '3', '4', '5', '6', '7', '8', '9']))).length
          = 10 := by
  have hage : field.name ≠ "age" := by rw [hname]; decide
  have htest : phoneRegex.test (removeNonDigits (jsTrim field.value)) = true ↔
      (field.value.toList.filter
        (fun c => decide (c ∈ ['0', '1', '2', '3', '4', '5', '6', '7', '8', '9']))).length
          = 10 := by
    rw [Regex.test_iff, removeNonDigits_trim]
    unfold phoneRegex
    rw [Regex.matches_times_cls]
    constructor
    · exact fun h => h.1
    · intro h
      refine ⟨h, fun c hc => ?_⟩
      have hm := (List.mem_filter.mp hc).2
      exact (isDigit09_iff_mem c).mpr (of_decide_eq_true hm)
  rw [← htest]
  unfold validateField checkField
  cases ht : phoneRegex.test (removeNonDigits (jsTrim field.value)) <;>
    simp [hname, hemail, hpassword, hvalue, ht]

/-- C12 (witness): a field named `contact_number` holding `(080) 555-0199` has
ten digits and is reported valid; one holding `080 555 019` has nine and is
not. -/
theorem validateField_phone_witness :
    ((phoneField.name = "contact_number" ∧ phoneField.type ≠ "email" ∧
        phoneField.type ≠ "password" ∧ jsTrim phoneField.value ≠ "") ∧
      phoneField.value.toList.filter
        (fun c => decide (c ∈ ['0', '1', '2', '3', '4', '5', '6', '7', '8', '9']))
          = ['0', '8', '0', '5', '5', '5', '0', '1', '9', '9'] ∧
      (validateField (fun _ => none) phoneField).1 = true) ∧
    ((shortPhoneField.name = "contact_number" ∧ shortPhoneField.type ≠ "email" ∧
        shortPhoneField.type ≠ "password" ∧ jsTrim shortPhoneField.value ≠ "") ∧
      shortPhoneField.value.toList.filter
        (fun c => decide (c ∈ ['0', '1', '2', '3', '4', '5', '6', '7', '8', '9']))
          = ['0', '8', '0', '5', '5', '5', '0', '1', '9'] ∧
      (validateField (fun _ => none) shortPhoneField).1 ≠ true) :=
  ⟨⟨by decide, by decide,
      (validateField_phone (fun _ => none) phoneField rfl (by decide) (by decide)
        (by decide)).mpr (by decide)⟩,
    ⟨by decide, by decide,
      fun h => absurd
        ((validateField_phone (fun _ => none) shortPhoneField rfl (by decide) (by decide)
          (by decide)).mp h) (by decide)⟩⟩

/-- C15: for an email field whose name is neither `contact_number` nor `age` and
whose trimmed value `v` is not empty, `validateField` reports the field valid
exactly when `v` has the described shape: no white space, exactly one `@` with
at least one character before it, and after the `@` a `.` with at least one
character before it and at least one after it. -/
theorem validateField_email (tr : Translations) (field : Field)
    (htype : field.type = "email") (hphone : field.name ≠ "contact_number")
    (hage : field.name ≠ "age") (hvalue : jsTrim field.value ≠ "") :
    (validateField tr field).1 = true ↔ EmailShape (jsTrim field.value).toList := by
  have hpassword : field.type ≠ "password" := by rw [htype]; decide
  rw [← emailRegex_matches_iff_shape, ← Regex.test_iff]
  unfold validateField checkField
  cases ht : emailRegex.test (jsTrim field.value) <;>
    simp [htype, hphone, hage, hvalue, ht]

/-- C15 (witness): an email field holding `ann@clinic.example.org`. -/
theorem validateField_email_witness :
    (emailField.type = "email" ∧ emailField.name ≠ "contact_number" ∧
      emailField.name ≠ "age" ∧ jsTrim emailField.value ≠ "") ∧
    ((validateField (fun _ => none) emailField).1 = true ↔
      EmailShape (jsTrim emailField.value).toList) :=
  ⟨by decide,
    validateField_email (fun _ => none) emailField rfl (by decide) (by decide) (by decide)⟩

/-! ## Theorems: table export -/

/-- Reading a property of an object with a first entry. -/
theorem JsObject.get_cons (e : String × String) (o : JsObject) (key : String) :
    JsObject.get (e :: o) key = if e.1 = key then some e.2 else JsObject.get o key := by
  unfold JsObject.get
  by_cases h : e.1 = key
  · simp [h]
  · simp [h]

/-- Reading a property of the empty object. -/
theorem JsObject.get_nil (key : String) : JsObject.get [] key = none := rfl

/-- Reading a property after overwriting the entries of key `k`. -/
theorem JsObject.get_replace (o : JsObject) (k v key : String) :
    JsObject.get (o.map (fun kv => if kv.1 == k then (k, v) else kv)) key
      = if key = k then (if o.any (fun kv => kv.1 == k) then some v else none)
        else JsObject.get o key := by
  induction o with
  | nil => simp [JsObject.get_nil]
  | cons e o ih =>
    rw [List.map_cons, JsObject.get_cons, ih, List.any_cons, JsObject.get_cons]
    by_cases hek : e.1 = k
    · by_cases hkey : key = k
      · simp [hek, hkey]
      · have : ¬ k = key := fun h => hkey h.symm
        simp [hek, hkey, this]
    · by_cases hkey : key = k
      · subst hkey
        have hb : (e.1 == key) = false := by simpa using hek
        rw [hb, Bool.false_or]
        simp [hek]
      · by_cases hee : e.1 = key
        · simp [hek, hkey, hee]
        · simp [hek, hkey, hee]

/-- Reading a property after adding a new entry at the end. -/
theorem JsObject.get_append (o : JsObject) (k v key : String)
    (hnew : o.any (fun kv => kv.1 == k) = false) :
    JsObject.get (o ++ [(k, v)]) key = if key = k then some v else JsObject.get o key := by
  induction o with
  | nil =>
    rw [List.nil_append, JsObject.get_cons, JsObject.get_nil]
    by_cases hkey : key = k
    · simp [hkey]
    · have : ¬ k = key := fun h => hkey h.symm
      simp [hkey, this]
  | cons e o ih =>
    simp only [List.any_cons, Bool.or_eq_false_iff, beq_eq_false_iff_ne, ne_eq] at hnew
    rw [List.cons_append, JsObject.get_cons, ih hnew.2, JsObject.get_cons]
    by_cases hee : e.1 = key
    · have : ¬ key = k := fun h => hnew.1 (hee.trans h)
      simp [hee, this]
    · simp [hee]

/-- Reading a property after the assignment `o[k] = v`, for `k` other than
`__proto__`. -/
theorem JsObject.get_set (o : JsObject) (k v key : String) (hk : k ≠ "__proto__") :
    JsObject.get (JsObject.set o k v) key
      = if key = k then some v else JsObject.get o key := by
  unfold JsObject.set
  rw [if_neg hk]
  cases hany : o.any (fun kv => kv.1 == k)
  · simp only [Bool.false_eq_true, if_false]
    exact JsObject.get_append o k v key hany
  · simp only [if_true]
    rw [JsObject.get_replace, hany]
    simp

/-- The header loop leaves a property alone whose key is not among the headers
still to visit. -/
theorem forEachHeader_get_other (cells : List TableCell) (headers : List String) (index : Nat)
    (acc : JsObject) (key : String) (hkey : key ∉ headers) :
    JsObject.get (forEachHeader cells index headers acc) key = JsObject.get acc key := by
  induction headers generalizing index acc with
  | nil => rfl
  | cons h hs ih =>
    have hne : key ≠ h := fun e => hkey (e ▸ List.mem_cons_self key hs)
    have hrest : key ∉ hs := fun m => hkey (List.mem_cons_of_mem h m)
    rw [forEachHeader, ih _ _ hrest]
    cases hc : cells[index]? with
    | none => rfl
    | some cell =>
      simp only []
      by_cases hp : h = "__proto__"
      · simp [JsObject.set, hp]
      · rw [JsObject.get_set _ _ _ _ hp, if_neg hne]

/-- The header loop, for headers that are pairwise distinct and none of which
is `__proto__`: the header at position `j` of those still to visit ends up
mapped to the trimmed text of the cell at that position, when the row has one,
and is left as it was otherwise. -/
theorem forEachHeader_get (cells : List TableCell) (headers : List String) (index : Nat)
    (acc : JsObject) (hnodup : headers.Nodup) (hproto : "__proto__" ∉ headers)
    (j : Nat) (header : String) (hj : headers[j]? = some header) :
    JsObject.get (forEachHeader cells index headers acc) header
      = match cells[index + j]? with
        | some cell => some (jsTrim cell.textContent)
        | none => JsObject.get acc header := by
  induction headers generalizing index acc j with
  | nil => simp at hj
  | cons h hs ih =>
    have hnd := List.nodup_cons.mp hnodup
    have hph : h ≠ "__proto__" := fun e => hproto (e ▸ List.mem_cons_self h hs)
    have hps : "__proto__" ∉ hs := fun m => hproto (List.mem_cons_of_mem h m)
    rw [forEachHeader]
    cases j with
    | zero =>
      simp only [List.getElem?_cons_zero, Option.some.injEq] at hj
      subst hj
      rw [forEachHeader_get_other _ _ _ _ _ hnd.1, Nat.add_zero]
      cases hc : cells[index]? with
      | none => rfl
      | some cell =>
        simp only []
        rw [JsObject.get_set _ _ _ _ hph, if_pos rfl]
    | succ j =>
      simp only [List.getElem?_cons_succ] at hj
      have hmem : header ∈ hs := List.getElem?_mem hj
      have hne : header ≠ h := fun e => hnd.1 (e ▸ hmem)
      rw [ih _ _ hnd.2 hps j hj]
      have hidx : index + 1 + j = index + (j + 1) := by omega
      rw [hidx]
      cases hc2 : cells[index + (j + 1)]? with
      | some cell2 => rfl
      | none =>
        simp only []
        cases hc : cells[index]? with
        | none => rfl
        | some cell =>
          simp only []
          rw [JsObject.get_set _ _ _ _ hph, if_neg hne]

/-- What `exportToJSON` builds for a table whose trimmed header texts are
pairwise distinct and none of which is `__proto__`: one object for each
`tbody` row, in row order, in which the header at position `i` is mapped to the
trimmed text of the row's cell at position `i`, and is absent when the row has
no cell there. -/
theorem exportData_rows (table : Table) (hnodup : (tableHeaders table).Nodup)
    (hproto : "__proto__" ∉ tableHeaders table) :
    (exportData table).length = (table.filter (fun row => row.inBody)).length ∧
    ∀ (r : Nat) (row : TableRow), (table.filter (fun row => row.inBody))[r]? = some row →
      ∃ object, (exportData table)[r]? = some object ∧
        ∀ (i : Nat) (header : String), (tableHeaders table)[i]? = some header →
          JsObject.get object header
            = ((rowCells row)[i]?).map (fun cell => jsTrim cell.textContent) := by
  unfold exportData
  refine ⟨List.length_map _ _, ?_⟩
  intro r row hrow
  refine ⟨rowData (tableHeaders table) row, by simp [List.getElem?_map, hrow], ?_⟩
  intro i header hi
  unfold rowData
  rw [forEachHeader_get _ _ _ _ hnodup hproto i header hi, Nat.zero_add]
  cases (rowCells row)[i]? with
  | none => rfl
  | some cell => rfl

/-- C14 (evaluation at the failing input): for a table with the single header
`__proto__` and one body row holding `x`, the object built for the row has no
property at all: the header is not mapped to the cell's text. -/
theorem exportData_drops_proto_header :
    tableHeaders protoTable = ["__proto__"] ∧
    (protoTable.filter (fun row => row.inBody)).map (fun row => (rowCells row).map
      (fun cell => jsTrim cell.textContent)) = [["x"]] ∧
    exportData protoTable = [[]] ∧
    (exportData protoTable).map (fun object => JsObject.get object "__proto__") = [none] := by
  decide

/-! ## Theorems: form validation over the document -/

/-- The value returned by `validateField` and the classes it leaves depend only
on the field's value, type, name, `required` attribute and classes. -/
theorem validateField_congr (tr : Translations) (f g : Field)
    (hvalue : f.value = g.value) (htype : f.type = g.type) (hname : f.name = g.name)
    (hrequired : f.required = g.required) (hclasses : f.classList = g.classList) :
    (validateField tr f).1 = (validateField tr g).1 ∧
    (validateField tr f).2.classList = (validateField tr g).2.classList := by
  cases f
  cases g
  simp only at hvalue htype hname hrequired hclasses
  subst hvalue htype hname hrequired hclasses
  exact ⟨rfl, rfl⟩

/-- An element found by identity is in the document and has that identity. -/
theorem nodeAt_some (nodes : List FormNode) (id : Nat) (n : FormNode)
    (h : nodeAt nodes id = some n) : n ∈ nodes ∧ n.id = id := by
  unfold nodeAt at h
  refine ⟨List.mem_of_find?_eq_some h, ?_⟩
  have := List.find?_some h
  simpa using this

/-- When identities are pairwise distinct, every element is the one found by its
identity. -/
theorem nodeAt_of_mem (nodes : List FormNode) (hids : (nodes.map (fun n => n.id)).Nodup)
    (n : FormNode) (hn : n ∈ nodes) : nodeAt nodes n.id = some n := by
  induction nodes with
  | nil => cases hn
  | cons m rest ih =>
    rw [List.map_cons, List.nodup_cons] at hids
    unfold nodeAt
    rw [List.find?_cons]
    rcases List.mem_cons.mp hn with h | h
    · subst h
      simp
    · have hne : m.id ≠ n.id := by
        intro e
        exact hids.1 (e ▸ List.mem_map_of_mem (fun n => n.id) h)
      have hb : (m.id == n.id) = false := by simpa using hne
      rw [hb]
      exact ih hids.2 h

/-- Looking an element up after a change that keeps identities. -/
theorem nodeAt_map (g : FormNode → FormNode) (hg : ∀ m, (g m).id = m.id)
    (nodes : List FormNode) (id : Nat) :
    nodeAt (nodes.map g) id = (nodeAt nodes id).map g := by
  unfold nodeAt
  induction nodes with
  | nil => rfl
  | cons m rest ih =>
    rw [List.map_cons, List.find?_cons, List.find?_cons, hg m]
    cases hb : (m.id == id)
    · exact ih
    · rfl

/-- Looking an element up after another element was put into the document. -/
theorem nodeAt_insertAfterLast (inside : FormNode → Bool) (child : FormNode)
    (nodes : List FormNode) (id : Nat) (hne : child.id ≠ id) :
    nodeAt (insertAfterLast inside child nodes) id = nodeAt nodes id := by
  have hb : (child.id == id) = false := by simpa using hne
  unfold nodeAt
  induction nodes with
  | nil => simp [insertAfterLast, hb]
  | cons m rest ih =>
    unfold insertAfterLast
    by_cases hany : rest.any inside = true
    · rw [if_pos hany, List.find?_cons, List.find?_cons, ih]
    · rw [if_neg hany]
      by_cases hin : inside m = true
      · rw [if_pos hin, List.find?_cons, List.find?_cons, List.find?_cons, hb]
      · rw [if_neg hin, List.find?_cons, List.find?_cons, ih]

/-- The elements of the document after another one was put in. -/
theorem mem_insertAfterLast (inside : FormNode → Bool) (child : FormNode)
    (nodes : List FormNode) (m : FormNode) (hm : m ∈ insertAfterLast inside child nodes) :
    m = child ∨ m ∈ nodes := by
  induction nodes with
  | nil =>
    simp only [insertAfterLast, List.mem_singleton] at hm
    exact Or.inl hm
  | cons n rest ih =>
    unfold insertAfterLast at hm
    by_cases hany : rest.any inside = true
    · rw [if_pos hany] at hm
      rcases List.mem_cons.mp hm with h | h
      · exact Or.inr (h ▸ List.mem_cons_self n rest)
      · rcases ih h with h2 | h2
        · exact Or.inl h2
        · exact Or.inr (List.mem_cons_of_mem n h2)
    · rw [if_neg hany] at hm
      by_cases hin : inside n = true
      · rw [if_pos hin] at hm
        simp only [List.mem_cons] at hm
        rcases hm with h | h | h
        · exact Or.inr (h ▸ List.mem_cons_self n rest)
        · exact Or.inl h
        · exact Or.inr (List.mem_cons_of_mem n h)
      · rw [if_neg hin] at hm
        rcases List.mem_cons.mp hm with h | h
        · exact Or.inr (h ▸ List.mem_cons_self n rest)
        · rcases ih h with h2 | h2
          · exact Or.inl h2
          · exact Or.inr (List.mem_cons_of_mem n h2)

/-- Setting the classes of an element keeps its identity and its control. -/
theorem setClasses_keeps (b : Bool) (m : FormNode) (classes : List String) :
    (if b = true then { m with classList := classes } else m).id = m.id ∧
    (if b = true then { m with classList := classes } else m).control = m.control := by
  cases b <;> exact ⟨rfl, rfl⟩

/-- Setting the text of an element keeps its identity, control and classes. -/
theorem setText_keeps (b : Bool) (m : FormNode) (text : String) :
    (if b = true then { m with textContent := text } else m).id = m.id ∧
    nodeCore (if b = true then { m with textContent := text } else m) = nodeCore m := by
  cases b <;> exact ⟨rfl, rfl⟩

/-- One call of `validateField` on a control of the document: the value it
returns, and what it leaves of every element present before the call: the
control keeps its attributes and gets the classes `validateField` gives it, and
every other element keeps its control and classes. -/
theorem validateNode_step (tr : Translations) (k : Nat) (form : Form) (n : FormNode)
    (c : Control) (hfresh : ∀ m ∈ form.nodes, m.id < form.nextId)
    (hn : nodeAt form.nodes k = some n) (hc : n.control = some c) :
    (validateNode tr k form).1 = (validateField tr (fieldView form.nodes n c)).1 ∧
    (∀ m ∈ (validateNode tr k form).2.nodes, m.id < (validateNode tr k form).2.nextId) ∧
    form.nextId ≤ (validateNode tr k form).2.nextId ∧
    (∀ j, j < form.nextId →
      (nodeAt (validateNode tr k form).2.nodes j).map nodeCore
        = (nodeAt form.nodes j).map (fun m =>
            if m.id == k then
              (m.control, (validateField tr (fieldView form.nodes n c)).2.classList)
            else nodeCore m)) := by
  have hmark : ∀ j, (nodeAt (form.nodes.map (fun m =>
      if m.id == k then
        { m with classList := (validateField tr (fieldView form.nodes n c)).2.classList }
      else m)) j).map nodeCore
      = (nodeAt form.nodes j).map (fun m =>
          if m.id == k then
            (m.control, (validateField tr (fieldView form.nodes n c)).2.classList)
          else nodeCore m) := by
    intro j
    rw [nodeAt_map _ (fun m => (setClasses_keeps _ m _).1)]
    cases nodeAt form.nodes j with
    | none => rfl
    | some m =>
      by_cases h : m.id = k <;> simp [h, nodeCore]
  have hmarkfresh : ∀ m ∈ form.nodes.map (fun m =>
      if m.id == k then
        { m with classList := (validateField tr (fieldView form.nodes n c)).2.classList }
      else m), m.id < form.nextId := by
    intro m hm
    obtain ⟨m0, hm0, rfl⟩ := List.mem_map.mp hm
    rw [(setClasses_keeps _ m0 _).1]
    exact hfresh m0 hm0
  unfold validateNode
  rw [hn]
  simp only [hc]
  cases hfb : findFeedback (form.nodes.map (fun m =>
      if m.id == k then
        { m with classList := (validateField tr (fieldView form.nodes n c)).2.classList }
      else m)) n.parent with
  | some errorDiv =>
    simp only []
    refine ⟨by first | rfl | trivial, ?_, Nat.le_refl _, ?_⟩
    · intro m hm
      obtain ⟨m0, hm0, rfl⟩ := List.mem_map.mp hm
      rw [(setText_keeps _ m0 _).1]
      exact hmarkfresh m0 hm0
    · intro j _
      rw [nodeAt_map _ (fun m => (setText_keeps _ m _).1), ← hmark j, Option.map_map]
      congr 1
      funext m
      exact (setText_keeps _ m _).2
  | none =>
    simp only []
    refine ⟨by first | rfl | trivial, ?_, Nat.le_succ _, ?_⟩
    · intro m hm
      unfold appendChild at hm
      rcases mem_insertAfterLast _ _ _ m hm with h | h
      · rw [h]
        exact Nat.lt_succ_self _
      · exact Nat.lt_succ_of_lt (hmarkfresh m h)
    · intro j hj
      unfold appendChild
      rw [nodeAt_insertAfterLast _ _ _ j (by simp only []; omega), hmark j]


/-- The view of a control in two documents gives the same result and the same
classes when the element carries the same classes in both. -/
theorem fieldView_transfer (tr : Translations) (nodes1 nodes2 : List FormNode)
    (n1 n2 : FormNode) (c : Control) (hclasses : n1.classList = n2.classList) :
    (validateField tr (fieldView nodes1 n1 c)).1 = (validateField tr (fieldView nodes2 n2 c)).1 ∧
    (validateField tr (fieldView nodes1 n1 c)).2.classList
      = (validateField tr (fieldView nodes2 n2 c)).2.classList :=
  validateField_congr tr _ _ rfl rfl rfl rfl hclasses

/-- The loop of `validateForm` from any intermediate state, over controls with
pairwise distinct identities: the flag ends true only if it was true and every
control still to visit is valid, every control still to visit ends with the
classes `validateField` gives it, and every other element present keeps its
control and classes. -/
theorem validateForm_loop (tr : Translations) (ids : List Nat) (hnodup : ids.Nodup)
    (cur : Form) (acc : Bool)
    (hfresh : ∀ m ∈ cur.nodes, m.id < cur.nextId)
    (hctl : ∀ id ∈ ids, ∃ n c, nodeAt cur.nodes id = some n ∧ n.control = some c) :
    ((ids.foldl
        (fun acc id =>
          let r := validateNode tr id acc.2
          (if !r.1 then false else acc.1, r.2))
        (acc, cur)).1 = true ↔
      acc = true ∧ ∀ id ∈ ids, ∀ n c, nodeAt cur.nodes id = some n → n.control = some c →
        (validateField tr (fieldView cur.nodes n c)).1 = true) ∧
    (∀ id ∈ ids, ∀ n c, nodeAt cur.nodes id = some n → n.control = some c →
      (nodeAt (ids.foldl
        (fun acc id =>
          let r := validateNode tr id acc.2
          (if !r.1 then false else acc.1, r.2))
        (acc, cur)).2.nodes id).map nodeCore
        = some (some c, (validateField tr (fieldView cur.nodes n c)).2.classList)) ∧
    (∀ j, j ∉ ids → j < cur.nextId →
      (nodeAt (ids.foldl
        (fun acc id =>
          let r := validateNode tr id acc.2
          (if !r.1 then false else acc.1, r.2))
        (acc, cur)).2.nodes j).map nodeCore
        = (nodeAt cur.nodes j).map nodeCore) := by
  induction ids generalizing cur acc with
  | nil =>
    refine ⟨?_, ?_, ?_⟩
    · simp
    · intro id hid
      cases hid
    · intro j _ _
      rfl
  | cons k ks ih =>
    obtain ⟨hk, hks⟩ := List.nodup_cons.mp hnodup
    obtain ⟨n, c, hn, hc⟩ := hctl k (List.mem_cons_self k ks)
    obtain ⟨s1, s2, s3, s4⟩ := validateNode_step tr k cur n c hfresh hn hc
    have hnid : n.id = k := (nodeAt_some _ _ _ hn).2
    have hlt : ∀ id m, nodeAt cur.nodes id = some m → id < cur.nextId := by
      intro id m hm
      obtain ⟨hmem, hid⟩ := nodeAt_some _ _ _ hm
      rw [← hid]
      exact hfresh m hmem
    -- every other element keeps its control and classes over the call on `k`
    have hother : ∀ j, j ≠ k → j < cur.nextId →
        (nodeAt (validateNode tr k cur).2.nodes j).map nodeCore
          = (nodeAt cur.nodes j).map nodeCore := by
      intro j hj hjlt
      rw [s4 j hjlt]
      cases hm : nodeAt cur.nodes j with
      | none => rfl
      | some m =>
        have hmid : m.id = j := (nodeAt_some _ _ _ hm).2
        have hne : ¬ m.id = k := by rw [hmid]; exact hj
        simp [hne]
    -- the control `k` gets its classes
    have hself : (nodeAt (validateNode tr k cur).2.nodes k).map nodeCore
        = some (some c, (validateField tr (fieldView cur.nodes n c)).2.classList) := by
      rw [s4 k (hlt k n hn), hn]
      simp [hnid, hc]
    -- a control still to visit is found again after the call, with the same classes
    have hagain : ∀ id ∈ ks, ∀ m d, nodeAt cur.nodes id = some m → m.control = some d →
        ∃ m2, nodeAt (validateNode tr k cur).2.nodes id = some m2 ∧ m2.control = some d ∧
          m2.classList = m.classList := by
      intro id hid m d hm hd
      have hne : id ≠ k := fun e => hk (e ▸ hid)
      have h := hother id hne (hlt id m hm)
      rw [hm] at h
      cases hm2 : nodeAt (validateNode tr k cur).2.nodes id with
      | none => rw [hm2] at h; cases h
      | some m2 =>
        rw [hm2] at h
        simp only [Option.map_some', Option.some.injEq, nodeCore, Prod.mk.injEq] at h
        exact ⟨m2, rfl, h.1.trans hd, h.2⟩
    have hctl2 : ∀ id ∈ ks, ∃ m c2, nodeAt (validateNode tr k cur).2.nodes id = some m ∧
        m.control = some c2 := by
      intro id hid
      obtain ⟨m, d, hm, hd⟩ := hctl id (List.mem_cons_of_mem k hid)
      obtain ⟨m2, h1, h2, _⟩ := hagain id hid m d hm hd
      exact ⟨m2, d, h1, h2⟩
    obtain ⟨i1, i2, i3⟩ := ih hks (validateNode tr k cur).2
      (if !(validateNode tr k cur).1 then false else acc) s2 hctl2
    rw [List.foldl_cons]
    refine ⟨?_, ?_, ?_⟩
    · rw [i1]
      constructor
      · rintro ⟨hacc, hall⟩
        have hr : (validateNode tr k cur).1 = true ∧ acc = true := by
          cases hv : (validateNode tr k cur).1 <;> simp [hv] at hacc ⊢
          exact hacc
        refine ⟨hr.2, ?_⟩
        intro id hid m d hm hd
        rcases List.mem_cons.mp hid with h | h
        · subst h
          rw [hn] at hm
          cases hm
          rw [hc] at hd
          cases hd
          rw [← s1]
          exact hr.1
        · obtain ⟨m2, h1, h2, h3⟩ := hagain id h m d hm hd
          rw [← (fieldView_transfer tr _ cur.nodes m2 m d h3).1]
          exact hall id h m2 d h1 h2
      · rintro ⟨hacc, hall⟩
        have hv : (validateNode tr k cur).1 = true := by
          rw [s1]
          exact hall k (List.mem_cons_self k ks) n c hn hc
        refine ⟨by simp [hv, hacc], ?_⟩
        intro id hid m2 d h1 h2
        obtain ⟨m, d0, hm, hd⟩ := hctl id (List.mem_cons_of_mem k hid)
        obtain ⟨m3, g1, g2, g3⟩ := hagain id hid m d0 hm hd
        rw [h1] at g1
        cases g1
        rw [h2] at g2
        cases g2
        rw [(fieldView_transfer tr _ cur.nodes m2 m d g3).1]
        exact hall id (List.mem_cons_of_mem k hid) m d hm hd
    · intro id hid m d hm hd
      rcases List.mem_cons.mp hid with h | h
      · subst h
        rw [hn] at hm
        cases hm
        rw [hc] at hd
        cases hd
        rw [i3 _ hk (Nat.lt_of_lt_of_le (hlt _ _ hn) s3)]
        exact hself
      · obtain ⟨m2, h1, h2, h3⟩ := hagain id h m d hm hd
        rw [i2 id h m2 d h1 h2, (fieldView_transfer tr _ cur.nodes m2 m d h3).2]
    · intro j hj hjlt
      have hjk : j ≠ k := fun e => hj (e ▸ List.mem_cons_self k ks)
      have hjks : j ∉ ks := fun hmem => hj (List.mem_cons_of_mem k hmem)
      rw [i3 j hjks (Nat.lt_of_lt_of_le hjlt s3)]
      exact hother j hjk hjlt


/-- The identities `validateForm` visits are those of the required controls of
the document. -/
theorem mem_requiredFields (form : Form) (id : Nat) :
    id ∈ requiredFields form ↔
      ∃ n ∈ form.nodes, n.id = id ∧ ∃ c, n.control = some c ∧ c.required = true := by
  unfold requiredFields
  simp only [List.mem_map, List.mem_filter]
  constructor
  · rintro ⟨n, ⟨hn, hreq⟩, hid⟩
    cases hc : n.control with
    | none => rw [hc] at hreq; cases hreq
    | some c =>
      rw [hc] at hreq
      exact ⟨n, hn, hid, c, hc, hreq⟩
  · rintro ⟨n, hn, hid, c, hc, hreq⟩
    refine ⟨n, ⟨hn, ?_⟩, hid⟩
    rw [hc]
    exact hreq

/-- C16: on a document whose elements have pairwise distinct identities,
`validateForm` returns true exactly when `validateField` returns true for every
control of the form that carries the `required` attribute, and it runs
`validateField` on every required control, also after one has failed: each of
them ends with the classes `validateField` gives it.  The field handed to
`validateField` is spelled out: the control's value, type, name and `required`
attribute, the element's classes, and whatever text `feedback` the error
element holds. -/
theorem validateForm_iff (tr : Translations) (form : Form)
    (hids : (form.nodes.map (fun n => n.id)).Nodup)
    (hfresh : ∀ n ∈ form.nodes, n.id < form.nextId) (feedback : Option String) :
    ((validateForm tr form).1 = true ↔
      ∀ n ∈ form.nodes, ∀ c, n.control = some c → c.required = true →
        (validateField tr
          { value := c.value, type := c.type, name := c.name, required := c.required,
            classList := n.classList, feedback := feedback }).1 = true) ∧
    (∀ n ∈ form.nodes, ∀ c, n.control = some c → c.required = true →
      ∃ m ∈ (validateForm tr form).2.nodes, m.id = n.id ∧ m.control = some c ∧
        m.classList = (validateField tr
          { value := c.value, type := c.type, name := c.name, required := c.required,
            classList := n.classList, feedback := feedback }).2.classList) := by
  have hview : ∀ (n : FormNode) (c : Control),
      (validateField tr (fieldView form.nodes n c)).1
        = (validateField tr
            { value := c.value, type := c.type, name := c.name, required := c.required,
              classList := n.classList, feedback := feedback }).1 ∧
      (validateField tr (fieldView form.nodes n c)).2.classList
        = (validateField tr
            { value := c.value, type := c.type, name := c.name, required := c.required,
              classList := n.classList, feedback := feedback }).2.classList :=
    fun n c => validateField_congr tr _ _ rfl rfl rfl rfl rfl
  have hnodup : (requiredFields form).Nodup := by
    unfold requiredFields
    exact List.Nodup.sublist (List.Sublist.map _ (List.filter_sublist _)) hids
  have hctl : ∀ id ∈ requiredFields form, ∃ n c, nodeAt form.nodes id = some n ∧
      n.control = some c := by
    intro id hid
    obtain ⟨n, hn, hnid, c, hc, _⟩ := (mem_requiredFields form id).mp hid
    exact ⟨n, c, hnid ▸ nodeAt_of_mem form.nodes hids n hn, hc⟩
  obtain ⟨l1, l2, _⟩ := validateForm_loop tr (requiredFields form) hnodup form true hfresh hctl
  unfold validateForm
  refine ⟨?_, ?_⟩
  · rw [l1]
    constructor
    · rintro ⟨_, hall⟩ n hn c hc hreq
      rw [← (hview n c).1]
      exact hall n.id ((mem_requiredFields form n.id).mpr ⟨n, hn, rfl, c, hc, hreq⟩) n c
        (nodeAt_of_mem form.nodes hids n hn) hc
    · intro hall
      refine ⟨rfl, ?_⟩
      intro id hid n c hn hc
      obtain ⟨n2, hn2, hnid, c2, hc2, hreq⟩ := (mem_requiredFields form id).mp hid
      have hsame : nodeAt form.nodes id = some n2 := hnid ▸ nodeAt_of_mem form.nodes hids n2 hn2
      rw [hn] at hsame
      cases hsame
      rw [hc] at hc2
      cases hc2
      rw [(hview n c).1]
      exact hall n hn2 c hc hreq
  · intro n hn c hc hreq
    have h := l2 n.id ((mem_requiredFields form n.id).mpr ⟨n, hn, rfl, c, hc, hreq⟩) n c
      (nodeAt_of_mem form.nodes hids n hn) hc
    cases hm : nodeAt ((requiredFields form).foldl
        (fun acc id =>
          let r := validateNode tr id acc.2
          (if !r.1 then false else acc.1, r.2))
        (true, form)).2.nodes n.id with
    | none => rw [hm] at h; cases h
    | some m =>
      rw [hm] at h
      simp only [Option.map_some', Option.some.injEq, nodeCore, Prod.mk.injEq] at h
      obtain ⟨hmem, hmid⟩ := nodeAt_some _ _ _ hm
      exact ⟨m, hmem, hmid, h.1, h.2.trans (hview n c).2⟩

/-- C16 (witness): a form whose required fields `full_name` (empty) and `age`
(`30`) share one parent.  The result is false though the last field is valid,
both fields are marked, and the one feedback element they share ends with the
empty text of the last call. -/
theorem validateForm_iff_witness :
    ((sharedParentForm.nodes.map (fun n => n.id)).Nodup ∧
      ∀ n ∈ sharedParentForm.nodes, n.id < sharedParentForm.nextId) ∧
    validateForm (fun _ => none) sharedParentForm
      = (false,
          { nodes :=
              [{ id := 1, parent := 0 },
               { id := 2, parent := 1, classList := ["is-invalid"],
                 control := some { value := "", name := "full_name", required := true } },
               { id := 3, parent := 1, classList := ["is-valid"],
                 control := some { value := "30", name := "age", required := true } },
               { id := 4, parent := 1, classList := ["invalid-feedback"], textContent := "" }]
            nextId := 5 }) ∧
    (validateField (fun _ => none)
        { value := "", name := "full_name", required := true }).1 = false ∧
    (validateField (fun _ => none)
        { value := "30", name := "age", required := true }).1 = true ∧
    (((validateForm (fun _ => none) sharedParentForm).1 = true ↔
        ∀ n ∈ sharedParentForm.nodes, ∀ c, n.control = some c → c.required = true →
          (validateField (fun _ => none)
            { value := c.value, type := c.type, name := c.name, required := c.required,
              classList := n.classList, feedback := none }).1 = true) ∧
      (∀ n ∈ sharedParentForm.nodes, ∀ c, n.control = some c → c.required = true →
        ∃ m ∈ (validateForm (fun _ => none) sharedParentForm).2.nodes,
          m.id = n.id ∧ m.control = some c ∧
          m.classList = (validateField (fun _ => none)
            { value := c.value, type := c.type, name := c.name, required := c.required,
              classList := n.classList, feedback := none }).2.classList)) :=
  ⟨⟨by decide, by decide⟩, by decide, by decide, by decide,
    validateForm_iff (fun _ => none) sharedParentForm (by decide) (by decide) none⟩

end BloodLink
